import Mathlib

/-!
Verification of the oasis-builder isometric city-builder scene engine.

A shallow embedding of the core of the repository:
* the `CityBuilder` scene of `src/unnamed/part_002` (grid occupancy model
  `cityMap`, the coordinate transforms `gridToIso` / `isoToGrid`, and the
  mutators `placeTile`, `removeTile`, `loadMap`, plus the serializer
  `saveToLocalStorage` / `exportMap` tile emission);
* the sprite-frame removal path `phaserRemoveSpriteFromAsset` of
  `src/components/iso-city-game.tsx` (atlas repacking and the placed-tile
  cascade);
* the pure image utilities of `src/lib/image-processing.ts`
  (`trimTransparentEdges`, `processImageForIsometric`).

Modelling conventions: JavaScript numbers that hold integer grid data are
`Int` (pixel sizes that are always non-negative are `Nat` where the source
can only produce non-negative values), fractional arithmetic (world
coordinates, origins, scales) is `ℚ`, the JavaScript `Map` keyed by the
string `"x,y,layer"` is an association list keyed by the triple
`(x, y, layer)` (the string key is in bijection with the triple), and
Phaser drawables are natural-number identifiers: creating an image
allocates a fresh identifier and `destroy()` appends the identifier to a
destruction log.
-/

set_option maxHeartbeats 1000000

namespace OasisBuilder

/-- Grid-cell key `(gridX, gridY, layer)`; the source uses the string
key `"gridX,gridY,layer"`, which is in bijection with this triple. -/
abbrev Key : Type := Int × Int × Int

/-- Multi-cell footprint `{width, height}` in cells. -/
structure Footprint where
  width : Nat
  height : Nat
deriving DecidableEq, Repr

/-- Normalized sprite origin `{x, y}`. -/
structure Origin where
  x : ℚ
  y : ℚ
deriving DecidableEq, Repr

/-- The JavaScript literal `0.5` (written via `mkRat` so that concrete
instances evaluate inside the kernel). -/
def half : ℚ := mkRat 1 2

/-- The default origin `{x: 0.5, y: 0.5}` used by `placeTile` / `loadMap`
(`spriteData.origin || { x: 0.5, y: 0.5 }`). -/
def defaultOrigin : Origin := ⟨half, half⟩

/-- One `cityMap` record: `{sprite, tileName, textureKey, layer, footprint,
origin, isAnchor, anchorKey}` as stored by `placeTile` / `loadMap`.
`sprite` is the drawable identifier (`none` models JavaScript `null`). -/
structure Tile where
  sprite : Option Nat
  tileName : String
  textureKey : String
  layer : Int
  footprint : Footprint
  origin : Origin
  isAnchor : Bool
  anchorKey : Option Key := none
deriving DecidableEq, Repr

/-- The `cityMap` JavaScript `Map`, in insertion order. -/
abbrev CityMap : Type := List (Key × Tile)

/-- `cityMap.get(k)` / `cityMap.has(k)`. -/
def get : CityMap → Key → Option Tile
  | [], _ => none
  | e :: rest, k => if e.1 = k then some e.2 else get rest k

/-- `cityMap.set(k, v)`: update in place when the key is present,
append otherwise (JavaScript `Map.set` semantics). -/
def setEntry : CityMap → Key → Tile → CityMap
  | [], k, v => [(k, v)]
  | e :: rest, k, v => if e.1 = k then (k, v) :: rest else e :: setEntry rest k v

/-- `cityMap.delete(k)`. -/
def delEntry : CityMap → Key → CityMap
  | [], _ => []
  | e :: rest, k => if e.1 = k then delEntry rest k else e :: delEntry rest k

theorem get_cons (e : Key × Tile) (rest : CityMap) (k : Key) :
    get (e :: rest) k = if e.1 = k then some e.2 else get rest k := rfl

theorem setEntry_cons (e : Key × Tile) (rest : CityMap) (k : Key) (v : Tile) :
    setEntry (e :: rest) k v =
      if e.1 = k then (k, v) :: rest else e :: setEntry rest k v := rfl

theorem delEntry_cons (e : Key × Tile) (rest : CityMap) (k : Key) :
    delEntry (e :: rest) k =
      if e.1 = k then delEntry rest k else e :: delEntry rest k := rfl

theorem get_setEntry (m : CityMap) (k k' : Key) (v : Tile) :
    get (setEntry m k v) k' = if k' = k then some v else get m k' := by
  induction m with
  | nil =>
    show get [(k, v)] k' = _
    rw [get_cons]
    by_cases h : k = k'
    · rw [if_pos h, if_pos h.symm]
    · rw [if_neg h, if_neg (fun h' : k' = k => h h'.symm)]
  | cons e rest ih =>
    rw [setEntry_cons]
    by_cases he : e.1 = k
    · rw [if_pos he, get_cons, get_cons]
      by_cases h : k = k'
      · rw [if_pos h, if_pos h.symm]
      · rw [if_neg h, if_neg (fun h' : k' = k => h h'.symm),
          if_neg (fun h' : e.1 = k' => h (he.symm.trans h'))]
    · rw [if_neg he, get_cons, get_cons, ih]
      by_cases h : e.1 = k'
      · have hk : ¬ k' = k := fun hk => he (h.trans hk)
        rw [if_pos h, if_pos h, if_neg hk]
      · rw [if_neg h, if_neg h]

theorem get_delEntry (m : CityMap) (k k' : Key) :
    get (delEntry m k) k' = if k' = k then none else get m k' := by
  induction m with
  | nil => simp [delEntry, get]
  | cons e rest ih =>
    rw [delEntry_cons]
    by_cases he : e.1 = k
    · rw [if_pos he, ih, get_cons]
      by_cases hk : k' = k
      · rw [if_pos hk, if_pos hk]
      · rw [if_neg hk, if_neg hk, if_neg (fun h' : e.1 = k' => hk (h'.symm.trans he))]
    · rw [if_neg he, get_cons, ih, get_cons]
      by_cases h : e.1 = k'
      · have hk : ¬ k' = k := fun hk => he (h.trans hk)
        rw [if_pos h, if_pos h, if_neg hk]
      · rw [if_neg h, if_neg h]

/-- Deleting each key in a list in turn (the `keysToRemove.forEach` /
footprint-clearing loops). -/
def delMany (m : CityMap) (ks : List Key) : CityMap :=
  ks.foldl delEntry m

theorem get_delMany (m : CityMap) (ks : List Key) (k : Key) :
    get (delMany m ks) k = if k ∈ ks then none else get m k := by
  induction ks generalizing m with
  | nil => simp [delMany]
  | cons c rest ih =>
    rw [delMany, List.foldl_cons, ← delMany, ih, get_delEntry]
    by_cases h : k ∈ rest
    · rw [if_pos h, if_pos (List.mem_cons.mpr (Or.inr h))]
    · by_cases hc : k = c
      · rw [if_neg h, if_pos hc, if_pos (List.mem_cons.mpr (Or.inl hc))]
      · rw [if_neg h, if_neg hc,
          if_neg (fun hm => (List.mem_cons.mp hm).elim hc h)]

/-- Store the same record at each key of a list in turn (the satellite-marking
loops write an identical record at every non-anchor footprint cell). -/
def setManyConst (m : CityMap) (ks : List Key) (v : Tile) : CityMap :=
  ks.foldl (fun m' c => setEntry m' c v) m

theorem get_setManyConst (m : CityMap) (ks : List Key) (v : Tile) (k : Key) :
    get (setManyConst m ks v) k = if k ∈ ks then some v else get m k := by
  induction ks generalizing m with
  | nil => simp [setManyConst]
  | cons c rest ih =>
    rw [setManyConst, List.foldl_cons, ← setManyConst, ih, get_setEntry]
    by_cases h : k ∈ rest
    · rw [if_pos h, if_pos (List.mem_cons.mpr (Or.inr h))]
    · by_cases hc : k = c
      · rw [if_neg h, if_pos hc, if_pos (List.mem_cons.mpr (Or.inl hc))]
      · rw [if_neg h, if_neg hc,
          if_neg (fun hm => (List.mem_cons.mp hm).elim hc h)]

/-- The footprint-rectangle cells `(gridX+fx, gridY+fy, layer)` in the
source's loop order (`fx` outer loop, `fy` inner loop). -/
def rectCells (gridX gridY : Int) (w h : Nat) (layer : Int) : List Key :=
  (List.range w).flatMap
    (fun (fx : Nat) => (List.range h).map
      (fun (fy : Nat) => (gridX + (fx : Int), gridY + (fy : Int), layer)))

theorem mem_rectCells {gridX gridY layer : Int} {w h : Nat} {k : Key} :
    k ∈ rectCells gridX gridY w h layer ↔
      ∃ fx : Nat, fx < w ∧ ∃ fy : Nat, fy < h ∧
        k = (gridX + (fx : Int), gridY + (fy : Int), layer) := by
  rw [rectCells, List.mem_flatMap]
  constructor
  · rintro ⟨fx, hfx, hk⟩
    rw [List.mem_map] at hk
    rcases hk with ⟨fy, hfy, rfl⟩
    exact ⟨fx, List.mem_range.mp hfx, fy, List.mem_range.mp hfy, rfl⟩
  · rintro ⟨fx, hfx, fy, hfy, rfl⟩
    exact ⟨fx, List.mem_range.mpr hfx,
      List.mem_map.mpr ⟨fy, List.mem_range.mpr hfy, rfl⟩⟩

/-- One sprite record of an asset set (`{name, x, y, width, height,
footprint, origin}` as produced by `parseAssetSet` or custom-asset import). -/
structure SpriteMeta where
  name : String
  x : Int
  y : Int
  width : Nat
  height : Nat
  footprint : Option Footprint := none
  origin : Option Origin := none
deriving DecidableEq, Repr

/-- An `AssetSet` (`src/lib/game-types.ts`): named ordered sprite collection
sharing one atlas texture. -/
structure AssetSet where
  id : String
  name : String
  textureKey : String
  sprites : List SpriteMeta
  isCustom : Bool := false
deriving DecidableEq, Repr

/-- `assetSets.get(id)` for the string-keyed `assetSets` JavaScript `Map`. -/
def lookupAsset : List (String × AssetSet) → String → Option AssetSet
  | [], _ => none
  | e :: rest, i => if e.1 = i then some e.2 else lookupAsset rest i

/-- The `CityBuilder` scene state: the fields of the class that the
occupancy model reads and writes.  Phaser drawables are modelled by the
allocator `nextSpriteId` together with the logs `createdSprites` and
`destroyedSprites` (`this.add.image` allocates, `destroy()` logs). -/
structure SceneState where
  gridSize : Int
  tileWidth : ℚ
  tileHeight : ℚ
  originOffsetX : ℚ
  originOffsetY : ℚ
  cityMap : CityMap
  assetSets : List (String × AssetSet)
  selectedAssetSetId : String
  selectedSpriteIndex : Nat
  currentLayer : Int
  hoverSprite : Option Nat := none
  nextSpriteId : Nat := 0
  createdSprites : List Nat := []
  destroyedSprites : List Nat := []
  autosaveScheduled : Bool := false
deriving DecidableEq, Repr

/-- `gridToIso(gridX, gridY)` (part_002 lines 529-537).  Grid coordinates may
be fractional: `placeTile` calls it at footprint centers. -/
def gridToIso (st : SceneState) (gridX gridY : ℚ) : ℚ × ℚ :=
  let isoX := (gridX - gridY) * (st.tileWidth / 2)
  let isoY := (gridX + gridY) * (st.tileHeight / 2)
  (isoX + st.originOffsetX, isoY + st.originOffsetY)

/-- `isoToGrid(isoX, isoY)` (part_002 lines 539-555). -/
def isoToGrid (st : SceneState) (isoX isoY : ℚ) : Int × Int :=
  let adjustedX := isoX - st.originOffsetX
  let adjustedY := isoY - st.originOffsetY
  let gridX := ⌊(adjustedX / (st.tileWidth / 2) + adjustedY / (st.tileHeight / 2)) / 2⌋
  let gridY := ⌊(adjustedY / (st.tileHeight / 2) - adjustedX / (st.tileWidth / 2)) / 2⌋
  (gridX, gridY)

/-- C3: for every integer pair `(gridX, gridY)`, with positive configured
`tileWidth` and `tileHeight` and any origin offsets,
`isoToGrid (gridToIso gridX gridY)` returns exactly `(gridX, gridY)`: the two
transforms are exact round-trip inverses at tile centers. -/
theorem isoToGrid_gridToIso_roundtrip (st : SceneState)
    (hW : 0 < st.tileWidth) (hH : 0 < st.tileHeight) (gridX gridY : Int) :
    isoToGrid st (gridToIso st gridX gridY).1 (gridToIso st gridX gridY).2 =
      (gridX, gridY) := by
  have hw : st.tileWidth ≠ 0 := ne_of_gt hW
  have hh : st.tileHeight ≠ 0 := ne_of_gt hH
  simp only [gridToIso, isoToGrid]
  rw [Prod.mk.injEq]
  constructor
  · have hx : ((((gridX : ℚ) - gridY) * (st.tileWidth / 2) + st.originOffsetX -
        st.originOffsetX) / (st.tileWidth / 2) +
        (((gridX : ℚ) + gridY) * (st.tileHeight / 2) + st.originOffsetY -
        st.originOffsetY) / (st.tileHeight / 2)) / 2 = (gridX : ℚ) := by
      field_simp
      ring
    rw [hx, Int.floor_intCast]
  · have hy : ((((gridX : ℚ) + gridY) * (st.tileHeight / 2) + st.originOffsetY -
        st.originOffsetY) / (st.tileHeight / 2) -
        (((gridX : ℚ) - gridY) * (st.tileWidth / 2) + st.originOffsetX -
        st.originOffsetX) / (st.tileWidth / 2)) / 2 = (gridY : ℚ) := by
      field_simp
      ring
    rw [hy, Int.floor_intCast]

/-- A concrete scene configuration: the constructor defaults of part_002
(`gridSize` 50, Kenney tile size 132 x 66, `originOffsetX` computed from the
grid, `originOffsetY` 200). -/
def sceneExample : SceneState :=
  { gridSize := 50
    tileWidth := 132
    tileHeight := 66
    originOffsetX := mkRat (50 * 132) 2
    originOffsetY := 200
    cityMap := []
    assetSets := []
    selectedAssetSetId := ""
    selectedSpriteIndex := 0
    currentLayer := 0 }

/-- `this.assetSets.get(this.selectedAssetSetId)` together with
`assetSet?.sprites[this.selectedSpriteIndex]`; `none` when either is
missing (`if (!assetSet || !spriteData) return`). -/
def resolveSelection (st : SceneState) : Option (AssetSet × SpriteMeta) :=
  match lookupAsset st.assetSets st.selectedAssetSetId with
  | none => none
  | some assetSet =>
    match assetSet.sprites[st.selectedSpriteIndex]? with
    | none => none
    | some spriteData => some (assetSet, spriteData)

/-- The footprint-clearing loop of `placeTile` (part_002 lines 693-708): for
each cell holding an entry, destroy the existing drawable when the entry is
the anchor, then delete the entry.  The state is the pair
`(cityMap, destroyedSprites)`. -/
def clearCells : List Key → CityMap × List Nat → CityMap × List Nat
  | [], s => s
  | c :: rest, (m, d) =>
    match get m c with
    | some existing =>
        clearCells rest
          (delEntry m c,
           if existing.isAnchor then d ++ existing.sprite.toList else d)
    | none => clearCells rest (m, d)

theorem get_clearCells (ks : List Key) (m : CityMap) (d : List Nat) (k : Key) :
    get (clearCells ks (m, d)).1 k = if k ∈ ks then none else get m k := by
  induction ks generalizing m d with
  | nil => simp [clearCells]
  | cons c rest ih =>
    rw [clearCells]
    by_cases hmem : k ∈ rest
    · cases hg : get m c with
      | some existing =>
        rw [ih, if_pos hmem, if_pos (List.mem_cons.mpr (Or.inr hmem))]
      | none =>
        rw [ih, if_pos hmem, if_pos (List.mem_cons.mpr (Or.inr hmem))]
    · by_cases hc : k = c
      · cases hg : get m c with
        | some existing =>
          rw [ih, if_neg hmem, get_delEntry, if_pos hc,
            if_pos (List.mem_cons.mpr (Or.inl hc))]
        | none =>
          rw [ih, if_neg hmem, if_pos (List.mem_cons.mpr (Or.inl hc)), hc, hg]
      · cases hg : get m c with
        | some existing =>
          rw [ih, if_neg hmem, get_delEntry, if_neg hc,
            if_neg (fun hm => (List.mem_cons.mp hm).elim hc hmem)]
        | none =>
          rw [ih, if_neg hmem,
            if_neg (fun hm => (List.mem_cons.mp hm).elim hc hmem)]

/-- The non-anchor footprint cells in the source's loop order: the
satellite-marking loops of `placeTile` (lines 740-757) and `loadMap`
(lines 1058-1073) skip `fx === 0 && fy === 0`. -/
def satCells (gridX gridY : Int) (w h : Nat) (layer : Int) : List Key :=
  (List.range w).flatMap
    (fun (fx : Nat) => (List.range h).filterMap
      (fun (fy : Nat) =>
        if fx = 0 ∧ fy = 0 then none
        else some (gridX + (fx : Int), gridY + (fy : Int), layer)))

theorem mem_satCells {gridX gridY layer : Int} {w h : Nat} {k : Key} :
    k ∈ satCells gridX gridY w h layer ↔
      k ∈ rectCells gridX gridY w h layer ∧ k ≠ (gridX, gridY, layer) := by
  rw [satCells, List.mem_flatMap, mem_rectCells]
  constructor
  · rintro ⟨fx, hfx, hk⟩
    rw [List.mem_filterMap] at hk
    rcases hk with ⟨fy, hfy, hok⟩
    by_cases h0 : fx = 0 ∧ fy = 0
    · rw [if_pos h0] at hok; cases hok
    · rw [if_neg h0] at hok
      cases hok
      refine ⟨⟨fx, List.mem_range.mp hfx, fy, List.mem_range.mp hfy, rfl⟩, ?_⟩
      intro hkey
      rw [Prod.mk.injEq, Prod.mk.injEq] at hkey
      have hfx0 : (fx : Int) = 0 := by omega
      have hfy0 : (fy : Int) = 0 := by omega
      exact h0 ⟨by exact_mod_cast hfx0, by exact_mod_cast hfy0⟩
  · rintro ⟨⟨fx, hfx, fy, hfy, rfl⟩, hne⟩
    have h0 : ¬(fx = 0 ∧ fy = 0) := by
      rintro ⟨rfl, rfl⟩
      exact hne (by simp)
    exact ⟨fx, List.mem_range.mpr hfx,
      List.mem_filterMap.mpr ⟨fy, List.mem_range.mpr hfy, by rw [if_neg h0]⟩⟩

/-- The anchor record stored by `placeTile` (lines 729-737): holds the
freshly created drawable. -/
def anchorRecord (st : SceneState) (assetSet : AssetSet)
    (spriteData : SpriteMeta) : Tile :=
  { sprite := some st.nextSpriteId
    tileName := spriteData.name
    textureKey := assetSet.textureKey
    layer := st.currentLayer
    footprint := spriteData.footprint.getD ⟨1, 1⟩
    origin := spriteData.origin.getD defaultOrigin
    isAnchor := true }

/-- The satellite record stored by `placeTile` (lines 746-755): no drawable,
back-reference to the anchor cell. -/
def satRecord (st : SceneState) (assetSet : AssetSet) (spriteData : SpriteMeta)
    (gridX gridY : Int) : Tile :=
  { sprite := none
    tileName := spriteData.name
    textureKey := assetSet.textureKey
    layer := st.currentLayer
    footprint := spriteData.footprint.getD ⟨1, 1⟩
    origin := spriteData.origin.getD defaultOrigin
    isAnchor := false
    anchorKey := some (gridX, gridY, st.currentLayer) }

/-- `placeTile` (part_002 lines 661-761), taking the already-computed grid
cell of the pointer (the source derives it from the pointer via `isoToGrid`).
The drawable's world position and depth are computed as in the source but a
drawable itself is only its allocated identifier. -/
def placeTile (st : SceneState) (gridX gridY : Int) : SceneState :=
  if gridX < 0 ∨ gridX ≥ st.gridSize ∨ gridY < 0 ∨ gridY ≥ st.gridSize then st
  else
    match resolveSelection st with
    | none => st
    | some (assetSet, spriteData) =>
      let footprint := spriteData.footprint.getD ⟨1, 1⟩
      let rect := rectCells gridX gridY footprint.width footprint.height
        st.currentLayer
      if rect.any (fun c =>
          decide (st.gridSize ≤ c.1) || decide (st.gridSize ≤ c.2.1)) then st
      else
        let cleared := clearCells rect (st.cityMap, st.destroyedSprites)
        let spriteId := st.nextSpriteId
        let anchorKey : Key := (gridX, gridY, st.currentLayer)
        let m2 := setEntry cleared.1 anchorKey
          (anchorRecord st assetSet spriteData)
        let m3 := setManyConst m2
          (satCells gridX gridY footprint.width footprint.height
            st.currentLayer)
          (satRecord st assetSet spriteData gridX gridY)
        { st with
            cityMap := m3
            destroyedSprites := cleared.2
            nextSpriteId := spriteId + 1
            createdSprites := st.createdSprites ++ [spriteId]
            autosaveScheduled := true }

/-- The anchor-key resolution of `removeTile` (lines 783-786):
`let anchorKey = key; if (!tileData.isAnchor && tileData.anchorKey)
anchorKey = tileData.anchorKey`. -/
def resolveAnchorKey (key : Key) (tileData : Tile) : Key :=
  match tileData.isAnchor, tileData.anchorKey with
  | false, some ak => ak
  | _, _ => key

/-- `removeTile` (part_002 lines 763-813).  `anchorData.footprint` is always
present on stored records, so the `|| {width: 1, height: 1}` fallback of
line 794 never fires and the footprint is read directly. -/
def removeTile (st : SceneState) (gridX gridY : Int) : SceneState :=
  if gridX < 0 ∨ gridX ≥ st.gridSize ∨ gridY < 0 ∨ gridY ≥ st.gridSize then st
  else
    let key : Key := (gridX, gridY, st.currentLayer)
    match get st.cityMap key with
    | none => st
    | some tileData =>
      let anchorKey := resolveAnchorKey key tileData
      match get st.cityMap anchorKey with
      | none => st
      | some anchorData =>
        let footprint := anchorData.footprint
        let cells := rectCells anchorKey.1 anchorKey.2.1
          footprint.width footprint.height anchorKey.2.2
        { st with
            cityMap := delMany st.cityMap cells
            destroyedSprites := st.destroyedSprites ++ anchorData.sprite.toList
            autosaveScheduled := true }

theorem placeTile_valid_eq (st : SceneState) (gridX gridY : Int)
    (assetSet : AssetSet) (spriteData : SpriteMeta)
    (hb : ¬(gridX < 0 ∨ gridX ≥ st.gridSize ∨ gridY < 0 ∨ gridY ≥ st.gridSize))
    (hsel : resolveSelection st = some (assetSet, spriteData))
    (hrect : (rectCells gridX gridY (spriteData.footprint.getD ⟨1, 1⟩).width
        (spriteData.footprint.getD ⟨1, 1⟩).height st.currentLayer).any
        (fun c => decide (st.gridSize ≤ c.1) || decide (st.gridSize ≤ c.2.1)) =
        false) :
    placeTile st gridX gridY = { st with
      cityMap := setManyConst
        (setEntry
          (clearCells
            (rectCells gridX gridY (spriteData.footprint.getD ⟨1, 1⟩).width
              (spriteData.footprint.getD ⟨1, 1⟩).height st.currentLayer)
            (st.cityMap, st.destroyedSprites)).1
          (gridX, gridY, st.currentLayer)
          (anchorRecord st assetSet spriteData))
        (satCells gridX gridY (spriteData.footprint.getD ⟨1, 1⟩).width
          (spriteData.footprint.getD ⟨1, 1⟩).height st.currentLayer)
        (satRecord st assetSet spriteData gridX gridY)
      destroyedSprites := (clearCells
        (rectCells gridX gridY (spriteData.footprint.getD ⟨1, 1⟩).width
          (spriteData.footprint.getD ⟨1, 1⟩).height st.currentLayer)
        (st.cityMap, st.destroyedSprites)).2
      nextSpriteId := st.nextSpriteId + 1
      createdSprites := st.createdSprites ++ [st.nextSpriteId]
      autosaveScheduled := true } := by
  simp only [placeTile, hsel]
  rw [if_neg hb, if_neg (by rw [hrect]; exact Bool.false_ne_true)]

theorem get_placeTile_valid (st : SceneState) (gridX gridY : Int)
    (assetSet : AssetSet) (spriteData : SpriteMeta)
    (hb : ¬(gridX < 0 ∨ gridX ≥ st.gridSize ∨ gridY < 0 ∨ gridY ≥ st.gridSize))
    (hsel : resolveSelection st = some (assetSet, spriteData))
    (hrect : (rectCells gridX gridY (spriteData.footprint.getD ⟨1, 1⟩).width
        (spriteData.footprint.getD ⟨1, 1⟩).height st.currentLayer).any
        (fun c => decide (st.gridSize ≤ c.1) || decide (st.gridSize ≤ c.2.1)) =
        false) (k : Key) :
    get (placeTile st gridX gridY).cityMap k =
      if k = (gridX, gridY, st.currentLayer) then
        some (anchorRecord st assetSet spriteData)
      else if k ∈ rectCells gridX gridY (spriteData.footprint.getD ⟨1, 1⟩).width
          (spriteData.footprint.getD ⟨1, 1⟩).height st.currentLayer then
        some (satRecord st assetSet spriteData gridX gridY)
      else get st.cityMap k := by
  rw [placeTile_valid_eq st gridX gridY assetSet spriteData hb hsel hrect]
  show get (setManyConst _ _ _) k = _
  rw [get_setManyConst, get_setEntry, get_clearCells]
  by_cases hk : k = (gridX, gridY, st.currentLayer)
  · have hns : k ∉ satCells gridX gridY (spriteData.footprint.getD ⟨1, 1⟩).width
        (spriteData.footprint.getD ⟨1, 1⟩).height st.currentLayer :=
      fun hs => (mem_satCells.mp hs).2 hk
    rw [if_neg hns, if_pos hk, if_pos hk]
  · rw [if_neg hk]
    by_cases hr : k ∈ rectCells gridX gridY
        (spriteData.footprint.getD ⟨1, 1⟩).width
        (spriteData.footprint.getD ⟨1, 1⟩).height st.currentLayer
    · have hs := mem_satCells.mpr ⟨hr, hk⟩
      rw [if_pos hs, if_neg hk, if_pos hr]
    · have hns : k ∉ satCells gridX gridY
          (spriteData.footprint.getD ⟨1, 1⟩).width
          (spriteData.footprint.getD ⟨1, 1⟩).height st.currentLayer :=
        fun hs => hr (mem_satCells.mp hs).1
      rw [if_neg hns, if_neg hk, if_neg hr, if_neg hr]

theorem rect_any_eq_false (st : SceneState) (gridX gridY : Int) (w h : Nat)
    (layer : Int) (hbx : gridX + (w : Int) ≤ st.gridSize)
    (hby : gridY + (h : Int) ≤ st.gridSize) :
    (rectCells gridX gridY w h layer).any
      (fun c => decide (st.gridSize ≤ c.1) || decide (st.gridSize ≤ c.2.1)) =
      false := by
  rw [List.any_eq_false]
  intro c hc
  rcases mem_rectCells.mp hc with ⟨fx, hfx, fy, hfy, rfl⟩
  simp only [Bool.or_eq_true, decide_eq_true_eq, not_or]
  constructor <;> [skip; skip] <;> simp only [not_le] <;> omega

theorem length_rectCells (gridX gridY : Int) (w h : Nat) (layer : Int) :
    (rectCells gridX gridY w h layer).length = w * h := by
  rw [rectCells, List.length_flatMap]
  have hmap : List.map (List.length ∘ fun (fx : Nat) =>
        (List.range h).map
          (fun (fy : Nat) => (gridX + (fx : Int), gridY + (fy : Int), layer)))
        (List.range w) =
      List.map (fun _ => h) (List.range w) :=
    List.map_congr_left (fun fx _ => by
      simp [Function.comp, List.length_map, List.length_range])
  rw [hmap]
  have hsum : ∀ n : Nat, (List.map (fun _ : Nat => h) (List.range n)).sum = n * h := by
    intro n
    induction n with
    | zero => simp
    | succ n ihn =>
      rw [List.range_succ, List.map_append, List.sum_append]
      simp only [List.map_cons, List.map_nil, List.sum_cons, List.sum_nil]
      rw [ihn]
      ring
  exact hsum w

/-- C1: for every placement that passes bounds validation (the anchor cell
and the whole footprint rectangle of the selected sprite with footprint
`(w, h)` lie inside `[0, gridSize)` in both axes), immediately after
`placeTile` returns, the `cityMap` holds an entry at every one of the
`w * h` rectangle cells `(gridX+fx, gridY+fy, currentLayer)` (and so exactly
`w * h` entries over those cells), the entry at the clicked cell is the one
anchor (`isAnchor = true`) holding the freshly created drawable, and every
other (satellite) entry has a `none` drawable and an `anchorKey` equal to the
clicked cell, which resolves to that anchor entry. -/
theorem placeTile_valid_occupancy (st : SceneState) (gridX gridY : Int)
    (assetSet : AssetSet) (spriteData : SpriteMeta)
    (hsel : resolveSelection st = some (assetSet, spriteData))
    (hw : 1 ≤ (spriteData.footprint.getD ⟨1, 1⟩).width)
    (hh : 1 ≤ (spriteData.footprint.getD ⟨1, 1⟩).height)
    (hx0 : 0 ≤ gridX) (hy0 : 0 ≤ gridY)
    (hbx : gridX + ((spriteData.footprint.getD ⟨1, 1⟩).width : Int) ≤ st.gridSize)
    (hby : gridY + ((spriteData.footprint.getD ⟨1, 1⟩).height : Int) ≤ st.gridSize) :
    get (placeTile st gridX gridY).cityMap (gridX, gridY, st.currentLayer) =
        some (anchorRecord st assetSet spriteData) ∧
      (anchorRecord st assetSet spriteData).isAnchor = true ∧
      (anchorRecord st assetSet spriteData).sprite = some st.nextSpriteId ∧
      (placeTile st gridX gridY).createdSprites =
        st.createdSprites ++ [st.nextSpriteId] ∧
      (∀ fx fy : Nat, fx < (spriteData.footprint.getD ⟨1, 1⟩).width →
        fy < (spriteData.footprint.getD ⟨1, 1⟩).height → ¬(fx = 0 ∧ fy = 0) →
        get (placeTile st gridX gridY).cityMap
            (gridX + (fx : Int), gridY + (fy : Int), st.currentLayer) =
          some (satRecord st assetSet spriteData gridX gridY)) ∧
      (satRecord st assetSet spriteData gridX gridY).sprite = none ∧
      (satRecord st assetSet spriteData gridX gridY).isAnchor = false ∧
      (satRecord st assetSet spriteData gridX gridY).anchorKey =
        some (gridX, gridY, st.currentLayer) ∧
      (rectCells gridX gridY (spriteData.footprint.getD ⟨1, 1⟩).width
          (spriteData.footprint.getD ⟨1, 1⟩).height st.currentLayer).countP
        (fun c => (get (placeTile st gridX gridY).cityMap c).isSome) =
        (spriteData.footprint.getD ⟨1, 1⟩).width *
          (spriteData.footprint.getD ⟨1, 1⟩).height := by
  have hb : ¬(gridX < 0 ∨ gridX ≥ st.gridSize ∨ gridY < 0 ∨
      gridY ≥ st.gridSize) := by omega
  have hrect := rect_any_eq_false st gridX gridY
    (spriteData.footprint.getD ⟨1, 1⟩).width
    (spriteData.footprint.getD ⟨1, 1⟩).height st.currentLayer hbx hby
  refine ⟨?_, rfl, rfl, ?_, ?_, rfl, rfl, rfl, ?_⟩
  · rw [get_placeTile_valid st gridX gridY assetSet spriteData hb hsel hrect,
      if_pos rfl]
  · rw [placeTile_valid_eq st gridX gridY assetSet spriteData hb hsel hrect]
  · intro fx fy hfx hfy h0
    rw [get_placeTile_valid st gridX gridY assetSet spriteData hb hsel hrect]
    have hk : (gridX + (fx : Int), gridY + (fy : Int), st.currentLayer) ≠
        (gridX, gridY, st.currentLayer) := by
      intro hkey
      rw [Prod.mk.injEq, Prod.mk.injEq] at hkey
      exact h0 ⟨by omega, by omega⟩
    rw [if_neg hk, if_pos (mem_rectCells.mpr ⟨fx, hfx, fy, hfy, rfl⟩)]
  · rw [← length_rectCells gridX gridY (spriteData.footprint.getD ⟨1, 1⟩).width
      (spriteData.footprint.getD ⟨1, 1⟩).height st.currentLayer]
    rw [List.countP_eq_length]
    intro c hc
    rw [get_placeTile_valid st gridX gridY assetSet spriteData hb hsel hrect]
    by_cases hk : c = (gridX, gridY, st.currentLayer)
    · rw [if_pos hk]; rfl
    · rw [if_neg hk, if_pos hc]; rfl

/-- A 2x2-footprint custom sprite, its asset set, and a scene that has it
selected on a 10 x 10 grid (used as concrete test input). -/
def houseSprite : SpriteMeta :=
  { name := "house"
    x := 0
    y := 0
    width := 264
    height := 200
    footprint := some ⟨2, 2⟩
    origin := some ⟨half, mkRat 17 20⟩ }

/-- Asset set holding `houseSprite` (concrete test input). -/
def houseAssetSet : AssetSet :=
  { id := "custom1"
    name := "Custom"
    textureKey := "texture_custom1"
    sprites := [houseSprite]
    isCustom := true }

/-- Scene with `houseAssetSet` selected (concrete test input). -/
def sceneWithHouse : SceneState :=
  { sceneExample with
      gridSize := 10
      assetSets := [("custom1", houseAssetSet)]
      selectedAssetSetId := "custom1"
      selectedSpriteIndex := 0 }

/-- Witness for C1: placing the 2x2 house at `(3, 3)` on the 10 x 10 grid. -/
theorem placeTile_valid_occupancy_witness :
    resolveSelection sceneWithHouse = some (houseAssetSet, houseSprite) ∧
      (0 : Int) ≤ 3 ∧
      (3 : Int) + ((houseSprite.footprint.getD ⟨1, 1⟩).width : Int) ≤
        sceneWithHouse.gridSize ∧
      get (placeTile sceneWithHouse 3 3).cityMap (3, 3, 0) =
        some (anchorRecord sceneWithHouse houseAssetSet houseSprite) :=
  ⟨rfl, by decide, by decide,
    (placeTile_valid_occupancy sceneWithHouse 3 3 houseAssetSet houseSprite
      rfl (by decide) (by decide) (by decide) (by decide) (by decide)
      (by decide)).1⟩

/-- C6: a placement request whose anchor cell lies outside `[0, gridSize)` in
either axis, or whose footprint rectangle extends past the grid edge, makes
`placeTile` a silent no-op: the state — `cityMap`, drawable logs and all —
is returned unchanged and no error is signalled. -/
theorem placeTile_rejects_out_of_bounds (st : SceneState) (gridX gridY : Int) :
    (gridX < 0 ∨ gridX ≥ st.gridSize ∨ gridY < 0 ∨ gridY ≥ st.gridSize →
      placeTile st gridX gridY = st) ∧
    (∀ assetSet spriteData,
      resolveSelection st = some (assetSet, spriteData) →
      (∃ fx : Nat, fx < (spriteData.footprint.getD ⟨1, 1⟩).width ∧
        ∃ fy : Nat, fy < (spriteData.footprint.getD ⟨1, 1⟩).height ∧
          (st.gridSize ≤ gridX + (fx : Int) ∨ st.gridSize ≤ gridY + (fy : Int))) →
      placeTile st gridX gridY = st) := by
  constructor
  · intro hb
    simp only [placeTile]
    rw [if_pos hb]
  · intro assetSet spriteData hsel hex
    by_cases hb : gridX < 0 ∨ gridX ≥ st.gridSize ∨ gridY < 0 ∨
        gridY ≥ st.gridSize
    · simp only [placeTile]
      rw [if_pos hb]
    · have hany : (rectCells gridX gridY
          (spriteData.footprint.getD ⟨1, 1⟩).width
          (spriteData.footprint.getD ⟨1, 1⟩).height st.currentLayer).any
          (fun c => decide (st.gridSize ≤ c.1) ||
            decide (st.gridSize ≤ c.2.1)) = true := by
        rw [List.any_eq_true]
        rcases hex with ⟨fx, hfx, fy, hfy, hor⟩
        refine ⟨(gridX + (fx : Int), gridY + (fy : Int), st.currentLayer),
          mem_rectCells.mpr ⟨fx, hfx, fy, hfy, rfl⟩, ?_⟩
        simp only [Bool.or_eq_true, decide_eq_true_eq]
        exact hor
      simp only [placeTile, hsel]
      rw [if_neg hb, if_pos hany]

/-- Witness for C6: placing at `(-1, 0)` is rejected, and placing the 2x2
house at `(9, 9)` (footprint past the grid edge) is rejected. -/
theorem placeTile_rejects_out_of_bounds_witness :
    ((-1 : Int) < 0 ∧ placeTile sceneWithHouse (-1) 0 = sceneWithHouse) ∧
      (resolveSelection sceneWithHouse = some (houseAssetSet, houseSprite) ∧
        placeTile sceneWithHouse 9 9 = sceneWithHouse) :=
  ⟨⟨by decide,
      (placeTile_rejects_out_of_bounds sceneWithHouse (-1) 0).1
        (Or.inl (by decide))⟩,
    ⟨rfl,
      (placeTile_rejects_out_of_bounds sceneWithHouse 9 9).2 houseAssetSet
        houseSprite rfl ⟨1, by decide, 0, by decide, Or.inl (by decide)⟩⟩⟩

/-- C4: for an in-bounds cell, `removeTile` looks up the occupying entry,
resolves its anchor key (following `anchorKey` when the entry is a
satellite), deletes every cell of the resolved record's footprint rectangle
at that layer from the `cityMap` (leaving all other cells untouched), and
destroys exactly the anchor's drawable; when the cell is unoccupied, or the
resolved anchor record is missing, the call is a silent no-op, not an
error. -/
theorem removeTile_spec (st : SceneState) (gridX gridY : Int)
    (hx0 : 0 ≤ gridX) (hxg : gridX < st.gridSize)
    (hy0 : 0 ≤ gridY) (hyg : gridY < st.gridSize) :
    (get st.cityMap (gridX, gridY, st.currentLayer) = none →
      removeTile st gridX gridY = st) ∧
    (∀ tileData,
      get st.cityMap (gridX, gridY, st.currentLayer) = some tileData →
      get st.cityMap
        (resolveAnchorKey (gridX, gridY, st.currentLayer) tileData) = none →
      removeTile st gridX gridY = st) ∧
    (∀ tileData anchorData ak,
      get st.cityMap (gridX, gridY, st.currentLayer) = some tileData →
      ak = resolveAnchorKey (gridX, gridY, st.currentLayer) tileData →
      get st.cityMap ak = some anchorData →
      ((∀ c, c ∈ rectCells ak.1 ak.2.1 anchorData.footprint.width
          anchorData.footprint.height ak.2.2 →
        get (removeTile st gridX gridY).cityMap c = none) ∧
       (∀ k, k ∉ rectCells ak.1 ak.2.1 anchorData.footprint.width
          anchorData.footprint.height ak.2.2 →
        get (removeTile st gridX gridY).cityMap k = get st.cityMap k) ∧
       (removeTile st gridX gridY).destroyedSprites =
         st.destroyedSprites ++ anchorData.sprite.toList ∧
       (∀ s, anchorData.sprite = some s →
         (removeTile st gridX gridY).destroyedSprites =
           st.destroyedSprites ++ [s]) ∧
       (removeTile st gridX gridY).createdSprites = st.createdSprites)) := by
  have hb : ¬(gridX < 0 ∨ gridX ≥ st.gridSize ∨ gridY < 0 ∨
      gridY ≥ st.gridSize) := by omega
  refine ⟨?_, ?_, ?_⟩
  · intro h1
    simp only [removeTile]
    rw [if_neg hb]
    simp only [h1]
  · intro tileData h1 h2
    simp only [removeTile]
    rw [if_neg hb]
    simp only [h1, h2]
  · intro tileData anchorData ak h1 hak h2
    subst hak
    simp only [removeTile]
    rw [if_neg hb]
    simp only [h1, h2]
    refine ⟨?_, ?_, trivial, ?_, trivial⟩
    · intro c hc
      rw [get_delMany, if_pos hc]
    · intro k hk
      rw [get_delMany, if_neg hk]
    · intro s hs
      rw [hs]
      rfl

/-- Witness for C4: after placing the 2x2 house at `(3, 3)`, removing via
the satellite cell `(4, 4)` resolves the anchor `(3, 3, 0)`, deletes the
anchor cell and destroys exactly the anchor's drawable (identifier 0). -/
theorem removeTile_spec_witness :
    get (placeTile sceneWithHouse 3 3).cityMap (4, 4, 0) =
        some (satRecord sceneWithHouse houseAssetSet houseSprite 3 3) ∧
      get (placeTile sceneWithHouse 3 3).cityMap (3, 3, 0) =
        some (anchorRecord sceneWithHouse houseAssetSet houseSprite) ∧
      get (removeTile (placeTile sceneWithHouse 3 3) 4 4).cityMap (3, 3, 0) =
        none ∧
      (removeTile (placeTile sceneWithHouse 3 3) 4 4).destroyedSprites =
        (placeTile sceneWithHouse 3 3).destroyedSprites ++ [0] := by
  have h := (removeTile_spec (placeTile sceneWithHouse 3 3) 4 4
      (by decide) (by decide) (by decide) (by decide)).2.2
    (satRecord sceneWithHouse houseAssetSet houseSprite 3 3)
    (anchorRecord sceneWithHouse houseAssetSet houseSprite)
    (3, 3, 0) (by decide) (by decide) (by decide)
  exact ⟨by decide, by decide, h.1 (3, 3, 0) (by decide), h.2.2.2.1 0 rfl⟩

/-- Witness for C3 at the concrete configuration and cell `(7, 11)`. -/
theorem isoToGrid_gridToIso_roundtrip_witness :
    0 < sceneExample.tileWidth ∧ 0 < sceneExample.tileHeight ∧
      isoToGrid sceneExample
        (gridToIso sceneExample 7 11).1 (gridToIso sceneExample 7 11).2 =
        (7, 11) := by
  refine ⟨by norm_num [sceneExample], by norm_num [sceneExample], ?_⟩
  have h := isoToGrid_gridToIso_roundtrip sceneExample
    (by norm_num [sceneExample]) (by norm_num [sceneExample]) 7 11
  simpa using h

/-- A raster image as seen through `ctx.getImageData`: dimensions plus the
alpha channel `data[(y * width + x) * 4 + 3]` as a function of `(x, y)`. -/
structure RawImage where
  width : Nat
  height : Nat
  alpha : Nat → Nat → Nat

/-- The bounds record returned by `trimTransparentEdges`
(`ImageBounds` in `src/lib/image-processing.ts`).  The arithmetic is on
JavaScript numbers, so the fields can go negative. -/
structure ImageBounds where
  x : Int
  y : Int
  width : Int
  height : Int
deriving DecidableEq, Repr

/-- The four scan variables of `trimTransparentEdges`. -/
structure TrimAcc where
  minX : Int
  minY : Int
  maxX : Int
  maxY : Int
deriving DecidableEq, Repr

/-- The pixel scan order of `trimTransparentEdges` (`y` outer loop,
`x` inner loop). -/
def pixelList (width height : Nat) : List (Nat × Nat) :=
  (List.range height).flatMap
    (fun (y : Nat) => (List.range width).map (fun (x : Nat) => (x, y)))

theorem mem_pixelList {width height : Nat} {p : Nat × Nat}
    (hp : p ∈ pixelList width height) : p.1 < width ∧ p.2 < height := by
  rw [pixelList, List.mem_flatMap] at hp
  rcases hp with ⟨y, hy, hx⟩
  rw [List.mem_map] at hx
  rcases hx with ⟨x, hx, rfl⟩
  exact ⟨List.mem_range.mp hx, List.mem_range.mp hy⟩

/-- The body of the scan loop of `trimTransparentEdges` (lines 38-49). -/
def trimStep (img : RawImage) (a : TrimAcc) (p : Nat × Nat) : TrimAcc :=
  if img.alpha p.1 p.2 > 10 then
    { minX := min a.minX (p.1 : Int)
      minY := min a.minY (p.2 : Int)
      maxX := max a.maxX (p.1 : Int)
      maxY := max a.maxY (p.2 : Int) }
  else a

/-- `trimTransparentEdges(ctx, width, height)` (image-processing.ts lines
25-64): scan every pixel for alpha > 10 tracking the min/max coordinates
(starting from `minX = width, minY = height, maxX = 0, maxY = 0`), then
apply a 2-pixel padding clamped to the image bounds and return
`{x, y, width: maxX - minX + 1, height: maxY - minY + 1}`. -/
def trimTransparentEdges (img : RawImage) : ImageBounds :=
  let scan := (pixelList img.width img.height).foldl (trimStep img)
    { minX := (img.width : Int), minY := (img.height : Int),
      maxX := 0, maxY := 0 }
  let padding : Int := 2
  let minX := max 0 (scan.minX - padding)
  let minY := max 0 (scan.minY - padding)
  let maxX := min ((img.width : Int) - 1) (scan.maxX + padding)
  let maxY := min ((img.height : Int) - 1) (scan.maxY + padding)
  { x := minX, y := minY, width := maxX - minX + 1, height := maxY - minY + 1 }

/-- `Math.round`: floor of the argument plus one half (ties round toward
positive infinity). -/
def jsRound (q : ℚ) : Int := ⌊q + half⌋

/-- The result record of `processImageForIsometric` (the data-url field is
the resampled buffer itself and is not part of the geometry). -/
structure ProcessedImageResult where
  originalWidth : Nat
  originalHeight : Nat
  width : Int
  height : Int
deriving DecidableEq, Repr

/-- `processImageForIsometric` (image-processing.ts lines 76-162), success
path after the image decode: trim, then compute the target size from the
canonical 132px tile width, the footprint width, and the user scale.
(`footprintHeight` is accepted but never used by the source's arithmetic.) -/
def processImageForIsometric (img : RawImage)
    (footprintWidth footprintHeight : Nat) (spriteScale : ℚ) :
    ProcessedImageResult :=
  let bounds := trimTransparentEdges img
  let tileWidth : ℚ := 132
  let baseTargetWidth : ℚ := tileWidth * (footprintWidth : ℚ)
  let baseScale := baseTargetWidth / (bounds.width : ℚ)
  let targetWidth := jsRound (baseTargetWidth * spriteScale)
  let targetHeight := jsRound ((bounds.height : ℚ) * baseScale * spriteScale)
  { originalWidth := img.width
    originalHeight := img.height
    width := targetWidth
    height := targetHeight }

/-- C8: for every input image containing a pixel above the trim threshold
and every `footprintWidth ≥ 1` and user scale in the allowed range, the
output width of `processImageForIsometric` equals
`round(132 * footprintWidth * userScale)` exactly — in particular within the
claim's 1px rounding tolerance. -/
theorem processImageForIsometric_width (img : RawImage)
    (footprintWidth footprintHeight : Nat) (spriteScale : ℚ)
    (himg : ∃ x, x < img.width ∧ ∃ y, y < img.height ∧ img.alpha x y > 10)
    (hfw : 1 ≤ footprintWidth)
    (hs1 : mkRat 1 10 ≤ spriteScale) (hs2 : spriteScale ≤ 2) :
    (processImageForIsometric img footprintWidth footprintHeight
        spriteScale).width =
      jsRound (132 * (footprintWidth : ℚ) * spriteScale) ∧
    |(processImageForIsometric img footprintWidth footprintHeight
        spriteScale).width -
      jsRound (132 * (footprintWidth : ℚ) * spriteScale)| ≤ 1 := by
  refine ⟨rfl, ?_⟩
  rw [show (processImageForIsometric img footprintWidth footprintHeight
      spriteScale).width =
    jsRound (132 * (footprintWidth : ℚ) * spriteScale) from rfl]
  simp

/-- A fully opaque 1 x 1 test image. -/
def opaqueImage1 : RawImage := ⟨1, 1, fun _ _ => 255⟩

/-- Witness for C8: footprintWidth 2 at user scale 1 gives width 264. -/
theorem processImageForIsometric_width_witness :
    (∃ x, x < opaqueImage1.width ∧ ∃ y, y < opaqueImage1.height ∧
        opaqueImage1.alpha x y > 10) ∧
      mkRat 1 10 ≤ (1 : ℚ) ∧
      (processImageForIsometric opaqueImage1 2 2 1).width =
        jsRound (132 * (2 : ℚ) * 1) ∧
      (processImageForIsometric opaqueImage1 2 2 1).width = 264 :=
  ⟨⟨0, by decide, 0, by decide, by decide⟩, by decide,
    (processImageForIsometric_width opaqueImage1 2 2 1
      ⟨0, by decide, 0, by decide, by decide⟩ (by decide) (by decide)
      (by decide)).1,
    by with_unfolding_all rfl⟩

theorem trimStep_foldl_no_hit (img : RawImage) (l : List (Nat × Nat))
    (a : TrimAcc) (h : ∀ p ∈ l, ¬ img.alpha p.1 p.2 > 10) :
    l.foldl (trimStep img) a = a := by
  induction l generalizing a with
  | nil => rfl
  | cons p rest ih =>
    rw [List.foldl_cons, trimStep, if_neg (h p (List.mem_cons_self p rest))]
    exact ih a (fun q hq => h q (List.mem_cons.mpr (Or.inr hq)))

/-- C9 (amended): on an image in which no pixel has alpha above the trim
threshold, `trimTransparentEdges` returns normally (no crash) but the scan
accumulator is never updated, so the result is the padded, clamped sentinel
rectangle — `x = max 0 (width-2)`, `y = max 0 (height-2)`,
`width = min (width-1) 2 - max 0 (width-2) + 1` and symmetrically for the
height — which is not the full image and has negative width and height as
soon as both dimensions are at least 6. -/
theorem trimTransparentEdges_fully_transparent (img : RawImage)
    (htrans : ∀ x y, x < img.width → y < img.height → img.alpha x y ≤ 10) :
    trimTransparentEdges img =
      { x := max 0 ((img.width : Int) - 2)
        y := max 0 ((img.height : Int) - 2)
        width := min ((img.width : Int) - 1) 2 - max 0 ((img.width : Int) - 2) + 1
        height :=
          min ((img.height : Int) - 1) 2 - max 0 ((img.height : Int) - 2) + 1 } := by
  have hscan : (pixelList img.width img.height).foldl (trimStep img)
      { minX := (img.width : Int), minY := (img.height : Int),
        maxX := 0, maxY := 0 } =
      { minX := (img.width : Int), minY := (img.height : Int),
        maxX := 0, maxY := 0 } :=
    trimStep_foldl_no_hit img _ _ (fun p hp => by
      have hb := mem_pixelList hp
      exact not_lt.mpr (htrans p.1 p.2 hb.1 hb.2))
  rw [trimTransparentEdges]
  rw [hscan]
  rfl

/-- A fully transparent 6 x 6 test image. -/
def transparentImage6 : RawImage := ⟨6, 6, fun _ _ => 0⟩

/-- A fully transparent 7 x 5 test image. -/
def transparentImage75 : RawImage := ⟨7, 5, fun _ _ => 3⟩

/-- C9 counterexample: on a fully transparent 6 x 6 image the returned
bounds are `{x: 4, y: 4, width: -1, height: -1}` — an inverted rectangle
with negative width and height, not a valid rectangle covering the full
image as the claim states. -/
theorem trimTransparentEdges_transparent_counterexample :
    trimTransparentEdges transparentImage6 =
        { x := 4, y := 4, width := -1, height := -1 } ∧
      (trimTransparentEdges transparentImage6).width < 0 ∧
      trimTransparentEdges transparentImage6 ≠
        { x := 0, y := 0, width := 6, height := 6 } := by decide

/-- Witness for the amended C9 on the fully transparent 7 x 5 image. -/
theorem trimTransparentEdges_fully_transparent_witness :
    (∀ x y, x < transparentImage75.width → y < transparentImage75.height →
        transparentImage75.alpha x y ≤ 10) ∧
      trimTransparentEdges transparentImage75 =
        { x := max 0 ((transparentImage75.width : Int) - 2)
          y := max 0 ((transparentImage75.height : Int) - 2)
          width := min ((transparentImage75.width : Int) - 1) 2 -
            max 0 ((transparentImage75.width : Int) - 2) + 1
          height := min ((transparentImage75.height : Int) - 1) 2 -
            max 0 ((transparentImage75.height : Int) - 2) + 1 } :=
  ⟨fun x y _ _ => (by decide : (3 : Nat) ≤ 10),
    trimTransparentEdges_fully_transparent transparentImage75
      (fun x y _ _ => (by decide : (3 : Nat) ≤ 10))⟩

/-- `remainingSprites` (iso-city-game.tsx lines 454-456):
`assetSet.sprites.filter((_, i) => i !== spriteIndex)`. -/
def removeAtIndex (sprites : List SpriteMeta) (spriteIndex : Nat) :
    List SpriteMeta :=
  (sprites.enum.filter (fun p => p.1 != spriteIndex)).map Prod.snd

theorem enumFrom_filter_ne_map_snd (l : List SpriteMeta) :
    ∀ (n i : Nat),
      ((List.enumFrom n l).filter (fun p => p.1 != n + i)).map Prod.snd =
        l.eraseIdx i := by
  induction l with
  | nil => intro n i; rfl
  | cons a l ih =>
    intro n i
    rw [List.enumFrom_cons, List.filter_cons]
    cases i with
    | zero =>
      have hfalse : ((n, a).1 != n + 0) = false := by simp
      rw [hfalse]
      simp only [Bool.false_eq_true, if_neg (by decide : ¬False)]
      have hall : (List.enumFrom (n + 1) l).filter (fun p => p.1 != n + 0) =
          List.enumFrom (n + 1) l := by
        rw [List.filter_eq_self]
        intro p hp
        have := List.le_fst_of_mem_enumFrom hp
        simp only [bne_iff_ne, ne_eq]
        omega
      rw [hall, List.enumFrom_map_snd, List.eraseIdx_cons_zero]
    | succ j =>
      have htrue : ((n, a).1 != n + (j + 1)) = true := by
        simp only [bne_iff_ne, ne_eq]
        omega
      rw [htrue]
      simp only [if_pos trivial, List.map_cons, List.eraseIdx_cons_succ]
      have harg : (fun p : Nat × SpriteMeta => p.1 != n + (j + 1)) =
          (fun p : Nat × SpriteMeta => p.1 != (n + 1) + j) := by
        funext p
        have : n + (j + 1) = (n + 1) + j := by omega
        rw [this]
      rw [harg, ih (n + 1) j]

theorem removeAtIndex_eq_eraseIdx (sprites : List SpriteMeta)
    (spriteIndex : Nat) :
    removeAtIndex sprites spriteIndex = sprites.eraseIdx spriteIndex := by
  have h := enumFrom_filter_ne_map_snd sprites 0 spriteIndex
  simpa [removeAtIndex, List.enum] using h

/-- The vertical repacking loop of the rebuild branch (iso-city-game.tsx
lines 509-526): each remaining sprite is reassigned `x = 0`, `y = yOffset`,
and `yOffset` advances by the sprite's height. -/
def packVertically : List SpriteMeta → Int → List SpriteMeta
  | [], _ => []
  | s :: rest, yOffset =>
    { s with x := 0, y := yOffset } ::
      packVertically rest (yOffset + (s.height : Int))

/-- The rebuilt canvas dimensions (iso-city-game.tsx lines 497-505):
`maxWidth` is the running maximum of the remaining widths starting from 0,
`totalHeight` the sum of the remaining heights. -/
def rebuildCanvasSize (remaining : List SpriteMeta) : Nat × Nat :=
  (remaining.foldl (fun acc s => max acc s.width) 0,
   remaining.foldl (fun acc s => acc + s.height) 0)

/-- The height of the first `j` sprites of a list (the `yOffset` reached
after packing them). -/
def prefixHeight (l : List SpriteMeta) (j : Nat) : Nat :=
  ((l.take j).map (fun s => s.height)).sum

theorem length_packVertically (l : List SpriteMeta) (y0 : Int) :
    (packVertically l y0).length = l.length := by
  induction l generalizing y0 with
  | nil => rfl
  | cons s rest ih => simp [packVertically, ih]

theorem get_packVertically (l : List SpriteMeta) (y0 : Int) (j : Nat)
    (hj : j < (packVertically l y0).length) (hj' : j < l.length) :
    (packVertically l y0).get ⟨j, hj⟩ =
      { l.get ⟨j, hj'⟩ with x := 0, y := y0 + (prefixHeight l j : Int) } := by
  induction l generalizing y0 j with
  | nil => exact absurd hj' (by simp)
  | cons s rest ih =>
    cases j with
    | zero =>
      show { s with x := 0, y := y0 } = _
      simp [prefixHeight]
    | succ j =>
      have hj2 : j < (packVertically rest (y0 + (s.height : Int))).length := by
        rw [length_packVertically]
        simpa using hj'
      have hj2' : j < rest.length := by simpa using hj'
      show (packVertically rest (y0 + (s.height : Int))).get ⟨j, hj2⟩ = _
      rw [ih (y0 + (s.height : Int)) j hj2 hj2']
      have : prefixHeight (s :: rest) (j + 1) = s.height + prefixHeight rest j := by
        simp [prefixHeight, List.take_succ_cons]
      rw [this]
      have harith : y0 + (s.height : Int) + (prefixHeight rest j : Int) =
          y0 + ((s.height + prefixHeight rest j : Nat) : Int) := by
        push_cast
        ring
      rw [harith]
      rfl

theorem foldl_add_height (l : List SpriteMeta) :
    ∀ a : Nat, l.foldl (fun acc s => acc + s.height) a =
      a + (l.map (fun s => s.height)).sum := by
  induction l with
  | nil => intro a; simp
  | cons s rest ih =>
    intro a
    rw [List.foldl_cons, ih (a + s.height)]
    simp [List.map_cons, List.sum_cons]
    omega

theorem foldl_max_width_init_le (l : List SpriteMeta) :
    ∀ a : Nat, a ≤ l.foldl (fun acc t => max acc t.width) a := by
  induction l with
  | nil => intro a; exact le_refl a
  | cons t rest ih =>
    intro a
    rw [List.foldl_cons]
    calc a ≤ max a t.width := le_max_left a t.width
      _ ≤ _ := ih (max a t.width)

theorem foldl_max_width_le (l : List SpriteMeta) :
    ∀ a : Nat, ∀ s ∈ l, s.width ≤ l.foldl (fun acc t => max acc t.width) a := by
  induction l with
  | nil => intro a s hs; cases hs
  | cons t rest ih =>
    intro a s hs
    rw [List.foldl_cons]
    rcases List.mem_cons.mp hs with rfl | hs'
    · calc s.width ≤ max a s.width := le_max_right a s.width
        _ ≤ _ := foldl_max_width_init_le rest (max a s.width)
    · exact ih (max a t.width) s hs'

theorem foldl_max_width_mem (l : List SpriteMeta) :
    ∀ a : Nat, l.foldl (fun acc t => max acc t.width) a = a ∨
      ∃ s ∈ l, l.foldl (fun acc t => max acc t.width) a = s.width := by
  induction l with
  | nil => intro a; exact Or.inl rfl
  | cons t rest ih =>
    intro a
    rw [List.foldl_cons]
    rcases ih (max a t.width) with h | ⟨s, hs, h⟩
    · rcases Nat.le_total a t.width with hle | hle
      · exact Or.inr ⟨t, List.mem_cons_self t rest, by rw [h]; omega⟩
      · exact Or.inl (by rw [h]; omega)
    · exact Or.inr ⟨s, List.mem_cons.mpr (Or.inr hs), h⟩

/-- C7: removing one frame at a valid index from an `n > 1`-frame custom
asset set repacks the `n - 1` remaining frames vertically: the rebuilt atlas
image is `(max remaining widths) x (sum of remaining heights)`, the
remaining frames keep their original relative order with rectangles
reassigned to `x = 0`, `y = sum of the preceding remaining heights` and
unchanged width/height — hence non-overlapping, ordered as before removal,
and inside the new image bounds. -/
theorem removeFrame_repack_geometry (sprites : List SpriteMeta)
    (spriteIndex : Nat) (hn : 1 < sprites.length)
    (hidx : spriteIndex < sprites.length) :
    removeAtIndex sprites spriteIndex = sprites.eraseIdx spriteIndex ∧
    (packVertically (removeAtIndex sprites spriteIndex) 0).length =
      sprites.length - 1 ∧
    (rebuildCanvasSize (removeAtIndex sprites spriteIndex)).2 =
      (((removeAtIndex sprites spriteIndex).map (fun s => s.height)).sum) ∧
    (∀ s ∈ removeAtIndex sprites spriteIndex,
      s.width ≤ (rebuildCanvasSize (removeAtIndex sprites spriteIndex)).1) ∧
    (∃ s ∈ removeAtIndex sprites spriteIndex,
      (rebuildCanvasSize (removeAtIndex sprites spriteIndex)).1 = s.width) ∧
    (∀ j (hj : j < (packVertically (removeAtIndex sprites spriteIndex)
        0).length) (hj' : j < (removeAtIndex sprites spriteIndex).length),
      ((packVertically (removeAtIndex sprites spriteIndex) 0).get ⟨j, hj⟩).x
          = 0 ∧
      ((packVertically (removeAtIndex sprites spriteIndex) 0).get ⟨j, hj⟩).y
          = (prefixHeight (removeAtIndex sprites spriteIndex) j : Int) ∧
      ((packVertically (removeAtIndex sprites spriteIndex) 0).get
          ⟨j, hj⟩).width =
        ((removeAtIndex sprites spriteIndex).get ⟨j, hj'⟩).width ∧
      ((packVertically (removeAtIndex sprites spriteIndex) 0).get
          ⟨j, hj⟩).height =
        ((removeAtIndex sprites spriteIndex).get ⟨j, hj'⟩).height ∧
      ((packVertically (removeAtIndex sprites spriteIndex) 0).get
          ⟨j, hj⟩).name =
        ((removeAtIndex sprites spriteIndex).get ⟨j, hj'⟩).name) := by
  have herase := removeAtIndex_eq_eraseIdx sprites spriteIndex
  refine ⟨herase, ?_, ?_, ?_, ?_, ?_⟩
  · rw [length_packVertically, herase, List.length_eraseIdx]
    simp [hidx]
  · show (removeAtIndex sprites spriteIndex).foldl
        (fun acc s => acc + s.height) 0 = _
    rw [foldl_add_height]
    omega
  · intro s hs
    exact foldl_max_width_le (removeAtIndex sprites spriteIndex) 0 s hs
  · have hne : removeAtIndex sprites spriteIndex ≠ [] := by
      rw [herase]
      intro hempty
      have := List.length_eraseIdx (l := sprites) (i := spriteIndex)
      rw [hempty] at this
      simp [hidx] at this
      omega
    rcases foldl_max_width_mem (removeAtIndex sprites spriteIndex) 0 with
      h | ⟨s, hs, h⟩
    · rcases List.exists_mem_of_ne_nil _ hne with ⟨s, hs⟩
      have hle := foldl_max_width_le (removeAtIndex sprites spriteIndex) 0 s hs
      refine ⟨s, hs, ?_⟩
      show (removeAtIndex sprites spriteIndex).foldl
        (fun acc s => max acc s.width) 0 = s.width
      omega
    · exact ⟨s, hs, h⟩
  · intro j hj hj'
    rw [get_packVertically _ 0 j hj hj']
    exact ⟨rfl, by simp, rfl, rfl, rfl⟩

/-- A 3-frame sprite list (concrete test input for the repack claims). -/
def threeFrames : List SpriteMeta :=
  [{ name := "a", x := 0, y := 0, width := 40, height := 30 },
   { name := "b", x := 0, y := 30, width := 64, height := 20 },
   { name := "c", x := 0, y := 50, width := 20, height := 50 }]

/-- Witness for C7: removing frame 1 of the 3-frame atlas leaves frames
`a`, `c` stacked at `y = 0` and `y = 30` in a 40 x 80 canvas. -/
theorem removeFrame_repack_geometry_witness :
    1 < threeFrames.length ∧ 1 < threeFrames.length ∧
      rebuildCanvasSize (removeAtIndex threeFrames 1) = (40, 80) ∧
      (rebuildCanvasSize (removeAtIndex threeFrames 1)).2 =
        (((removeAtIndex threeFrames 1).map (fun s => s.height)).sum) ∧
      packVertically (removeAtIndex threeFrames 1) 0 =
        [{ name := "a", x := 0, y := 0, width := 40, height := 30 },
         { name := "c", x := 0, y := 30, width := 20, height := 50 }] :=
  ⟨by decide, by decide, by decide,
    (removeFrame_repack_geometry threeFrames 1 (by decide) (by decide)).2.2.1,
    by decide⟩

theorem get_mem {m : CityMap} {k : Key} {td : Tile} (h : get m k = some td) :
    (k, td) ∈ m := by
  induction m with
  | nil => cases h
  | cons e rest ih =>
    rw [get_cons] at h
    by_cases he : e.1 = k
    · rw [if_pos he] at h
      cases h
      exact List.mem_cons.mpr (Or.inl (by rw [← he]))
    · rw [if_neg he] at h
      exact List.mem_cons.mpr (Or.inr (ih h))

theorem mem_get {m : CityMap} (hnd : (m.map Prod.fst).Nodup) {k : Key}
    {td : Tile} (h : (k, td) ∈ m) : get m k = some td := by
  induction m with
  | nil => cases h
  | cons e rest ih =>
    rw [List.map_cons, List.nodup_cons] at hnd
    rcases List.mem_cons.mp h with rfl | h'
    · rw [get_cons, if_pos rfl]
    · rw [get_cons]
      by_cases he : e.1 = k
      · exfalso
        apply hnd.1
        rw [he]
        exact List.mem_map.mpr ⟨(k, td), h', rfl⟩
      · rw [if_neg he]
        exact ih hnd.2 h'

theorem keys_delEntry_sublist (m : CityMap) (k : Key) :
    ((delEntry m k).map Prod.fst).Sublist (m.map Prod.fst) := by
  induction m with
  | nil => simp [delEntry]
  | cons e rest ih =>
    rw [delEntry_cons]
    by_cases he : e.1 = k
    · rw [if_pos he, List.map_cons]
      exact ih.trans (List.sublist_cons_self e.1 _)
    · rw [if_neg he, List.map_cons, List.map_cons]
      exact ih.cons₂ e.1

theorem keys_delMany_sublist (m : CityMap) (ks : List Key) :
    ((delMany m ks).map Prod.fst).Sublist (m.map Prod.fst) := by
  induction ks generalizing m with
  | nil => exact List.Sublist.refl _
  | cons c rest ih =>
    rw [delMany, List.foldl_cons, ← delMany]
    exact (ih (delEntry m c)).trans (keys_delEntry_sublist m c)

theorem nodup_keys_delMany {m : CityMap} (hnd : (m.map Prod.fst).Nodup)
    (ks : List Key) : ((delMany m ks).map Prod.fst).Nodup :=
  (keys_delMany_sublist m ks).nodup hnd

/-- `get` through a value-only transformation of every entry. -/
theorem get_mapValues (m : CityMap) (g : Tile → Tile) (k : Key) :
    get (m.map (fun e => (e.1, g e.2))) k = (get m k).map g := by
  induction m with
  | nil => rfl
  | cons e rest ih =>
    rw [List.map_cons, get_cons, get_cons]
    by_cases he : e.1 = k
    · rw [if_pos he, if_pos he]
      rfl
    · rw [if_neg he, if_neg he, ih]

theorem mem_filter_keys {m : CityMap} {p : Tile → Bool} {k : Key} :
    k ∈ (m.filter (fun e => p e.2)).map Prod.fst ↔
      ∃ td, (k, td) ∈ m ∧ p td = true := by
  rw [List.mem_map]
  constructor
  · rintro ⟨e, he, rfl⟩
    rw [List.mem_filter] at he
    exact ⟨e.2, by simpa using he.1, he.2⟩
  · rintro ⟨td, htd, hp⟩
    exact ⟨(k, td), List.mem_filter.mpr ⟨htd, hp⟩, rfl⟩

/-- The recreation filter of `phaserRemoveSpriteFromAsset` (lines 436-441):
`tileData.sprite && tileData.textureKey === textureKey &&
tileData.isAnchor`. -/
def recreateTileB (textureKey : String) (td : Tile) : Bool :=
  td.sprite.isSome && decide (td.textureKey = textureKey) && td.isAnchor

/-- The cascade filter (lines 415-425): `tileData.textureKey === textureKey
&& tileData.tileName === removedSprite.name`. -/
def cascadeMatchB (textureKey removedName : String) (td : Tile) : Bool :=
  decide (td.textureKey = textureKey) && decide (td.tileName = removedName)

/-- `assetSets.set(id, assetSet)`. -/
def setAssetEntry : List (String × AssetSet) → String → AssetSet →
    List (String × AssetSet)
  | [], i, a => [(i, a)]
  | e :: rest, i, a =>
    if e.1 = i then (i, a) :: rest else e :: setAssetEntry rest i a

/-- The sprite-recreation loop of the rebuild branch (lines 537-552): for
each recorded key allocate a fresh drawable and reattach it to the map entry
when the entry still exists.  State: `(cityMap, nextSpriteId, created)`. -/
def recreateSprites : List Key → CityMap × Nat × List Nat →
    CityMap × Nat × List Nat
  | [], s => s
  | k :: ks, (m, nid, created) =>
    let m' := match get m k with
      | some td => setEntry m k { td with sprite := some nid }
      | none => m
    recreateSprites ks (m', nid + 1, created ++ [nid])

theorem get_recreateSprites_notMem (ks : List Key) (m : CityMap) (nid : Nat)
    (created : List Nat) (k : Key) (hk : k ∉ ks) :
    get (recreateSprites ks (m, nid, created)).1 k = get m k := by
  induction ks generalizing m nid created with
  | nil => rfl
  | cons c rest ih =>
    rw [recreateSprites]
    have hkr : k ∉ rest := fun h => hk (List.mem_cons.mpr (Or.inr h))
    have hkc : k ≠ c := fun h => hk (List.mem_cons.mpr (Or.inl h))
    cases hg : get m c with
    | some td =>
      simp only [hg]
      rw [ih _ _ _ hkr, get_setEntry, if_neg hkc]
    | none =>
      simp only [hg]
      rw [ih _ _ _ hkr]

theorem get_recreateSprites_mem (ks : List Key) (m : CityMap) (nid : Nat)
    (created : List Nat) (k : Key) (hnd : ks.Nodup) (hk : k ∈ ks) :
    ∃ n, get (recreateSprites ks (m, nid, created)).1 k =
      (get m k).map (fun td => { td with sprite := some n }) := by
  induction ks generalizing m nid created with
  | nil => cases hk
  | cons c rest ih =>
    rw [List.nodup_cons] at hnd
    rw [recreateSprites]
    rcases List.mem_cons.mp hk with rfl | hk'
    · refine ⟨nid, ?_⟩
      cases hg : get m k with
      | some td =>
        simp only [hg]
        rw [get_recreateSprites_notMem _ _ _ _ _ hnd.1, get_setEntry,
          if_pos rfl]
        rfl
      | none =>
        simp only [hg]
        rw [get_recreateSprites_notMem _ _ _ _ _ hnd.1, hg]
        rfl
    · have hkc : k ≠ c := fun h => hnd.1 (h ▸ hk')
      cases hg : get m c with
      | some td =>
        simp only [hg]
        rcases ih _ _ _ hnd.2 hk' with ⟨n, hn⟩
        refine ⟨n, ?_⟩
        rw [hn, get_setEntry, if_neg hkc]
      | none =>
        simp only [hg]
        exact ih _ _ _ hnd.2 hk'

/-- The keys collected by the cascade loop (`keysToRemove`, lines 414-426). -/
def cascadeKeys (m : CityMap) (tk rn : String) : List Key :=
  (m.filter (fun e => cascadeMatchB tk rn e.2)).map Prod.fst

/-- The `cityMap` after `keysToRemove.forEach(delete)` (line 426). -/
def cascadeDelete (m : CityMap) (tk rn : String) : CityMap :=
  delMany m (cascadeKeys m tk rn)

/-- The drawables destroyed by the cascade loop (line 421). -/
def destroyedByCascade (m : CityMap) (tk rn : String) : List Nat :=
  (m.filter (fun e => cascadeMatchB tk rn e.2)).flatMap
    (fun e => e.2.sprite.toList)

/-- The keys recorded in `spritesToRecreate` (lines 436-451). -/
def toRecreateKeys (m : CityMap) (tk : String) : List Key :=
  (m.filter (fun e => recreateTileB tk e.2)).map Prod.fst

/-- The drawables destroyed while recording `spritesToRecreate`
(line 448). -/
def destroyedByRecreate (m : CityMap) (tk : String) : List Nat :=
  (m.filter (fun e => recreateTileB tk e.2)).flatMap
    (fun e => e.2.sprite.toList)

/-- `tileData.sprite = null` applied to the entries recorded for
recreation (line 449). -/
def nullTile (tk : String) (td : Tile) : Tile :=
  if recreateTileB tk td then { td with sprite := none } else td

/-- The `cityMap` after every recorded entry's sprite is nulled. -/
def nullRecreated (m : CityMap) (tk : String) : CityMap :=
  m.map (fun e => (e.1, nullTile tk e.2))

/-- `phaserRemoveSpriteFromAsset(assetId, spriteIndex)`
(iso-city-game.tsx lines 392-576): validity checks, hover-sprite teardown,
cascade deletion of placed tiles using the removed frame, drawable
destruction and re-creation around the atlas rebuild, sprite-list update and
selection clamp.  The image decode inside the rebuild is modelled as
completing immediately (the only asynchronous boundary).  Returns the
JavaScript boolean together with the updated scene. -/
def removeSpriteFromAsset (st : SceneState) (assetId : String)
    (spriteIndex : Nat) : Bool × SceneState :=
  match lookupAsset st.assetSets assetId with
  | none => (false, st)
  | some assetSet =>
    match assetSet.sprites[spriteIndex]? with
    | none => (false, st)
    | some removedSprite =>
      let textureKey := assetSet.textureKey
      let m1 := cascadeDelete st.cityMap textureKey removedSprite.name
      let d2 := st.destroyedSprites ++ st.hoverSprite.toList ++
        destroyedByCascade st.cityMap textureKey removedSprite.name ++
        destroyedByRecreate m1 textureKey
      let m2 := nullRecreated m1 textureKey
      let remainingSprites := removeAtIndex assetSet.sprites spriteIndex
      let newSelectedIndex :=
        if st.selectedAssetSetId = assetId ∧
            remainingSprites.length ≤ st.selectedSpriteIndex then
          remainingSprites.length - 1
        else st.selectedSpriteIndex
      if remainingSprites.isEmpty then
        (true, { st with
          cityMap := m2
          assetSets := setAssetEntry st.assetSets assetId
            { assetSet with sprites := remainingSprites }
          destroyedSprites := d2
          hoverSprite := none
          selectedSpriteIndex := newSelectedIndex })
      else
        let packed := packVertically remainingSprites 0
        let rcr := recreateSprites (toRecreateKeys m1 textureKey)
          (m2, st.nextSpriteId, [])
        (true, { st with
          cityMap := rcr.1
          assetSets := setAssetEntry st.assetSets assetId
            { assetSet with sprites := packed }
          destroyedSprites := d2
          hoverSprite := none
          selectedSpriteIndex := newSelectedIndex
          nextSpriteId := rcr.2.1
          createdSprites := st.createdSprites ++ rcr.2.2 })

theorem cascadeMatchB_eq_true {tk rn : String} {td : Tile} :
    cascadeMatchB tk rn td = true ↔ td.textureKey = tk ∧ td.tileName = rn := by
  simp [cascadeMatchB]

theorem recreateTileB_eq_true {tk : String} {td : Tile} :
    recreateTileB tk td = true ↔
      td.sprite.isSome = true ∧ td.textureKey = tk ∧ td.isAnchor = true := by
  simp [recreateTileB, and_assoc]

theorem get_cascadeDelete {m : CityMap} (hnd : (m.map Prod.fst).Nodup)
    (tk rn : String) (k : Key) :
    get (cascadeDelete m tk rn) k =
      match get m k with
      | none => none
      | some td => if cascadeMatchB tk rn td then none else some td := by
  rw [cascadeDelete, get_delMany]
  cases hg : get m k with
  | none =>
    simp only [hg]
    split_ifs <;> rfl
  | some td =>
    simp only [hg]
    by_cases hmatch : cascadeMatchB tk rn td = true
    · have hmem : k ∈ cascadeKeys m tk rn :=
        mem_filter_keys.mpr ⟨td, get_mem hg, hmatch⟩
      rw [if_pos hmem, if_pos hmatch]
    · have hmem : k ∉ cascadeKeys m tk rn := by
        intro hmem
        rcases mem_filter_keys.mp hmem with ⟨td', htd', hm'⟩
        rw [mem_get hnd htd'] at hg
        cases hg
        exact hmatch hm'
      rw [if_neg hmem, if_neg hmatch]

theorem get_nullRecreated (m : CityMap) (tk : String) (k : Key) :
    get (nullRecreated m tk) k = (get m k).map (nullTile tk) :=
  get_mapValues m (nullTile tk) k

theorem nodup_keys_nullRecreated {m : CityMap} (hnd : (m.map Prod.fst).Nodup)
    (tk : String) : ((nullRecreated m tk).map Prod.fst).Nodup := by
  have : (nullRecreated m tk).map Prod.fst = m.map Prod.fst := by
    rw [nullRecreated, List.map_map]
    rfl
  rw [this]
  exact hnd

theorem mem_toRecreateKeys {m : CityMap} {tk : String} {k : Key} :
    k ∈ toRecreateKeys m tk ↔ ∃ td, (k, td) ∈ m ∧ recreateTileB tk td = true :=
  mem_filter_keys

theorem nodup_toRecreateKeys {m : CityMap} (hnd : (m.map Prod.fst).Nodup)
    (tk : String) : (toRecreateKeys m tk).Nodup :=
  ((List.filter_sublist m).map Prod.fst).nodup hnd

theorem sprites_of_empty_remaining {sprites : List SpriteMeta} {idx : Nat}
    {r : SpriteMeta} (hidx : sprites[idx]? = some r)
    (hempty : (removeAtIndex sprites idx).isEmpty = true) :
    sprites = [r] := by
  rw [removeAtIndex_eq_eraseIdx, List.isEmpty_iff] at hempty
  have hlt : idx < sprites.length := by
    by_contra hge
    rw [List.getElem?_eq_none (by omega)] at hidx
    cases hidx
  have hlen : sprites.length = 1 := by
    have h := List.length_eraseIdx (l := sprites) (i := idx)
    rw [hempty] at h
    simp only [List.length_nil, if_pos hlt] at h
    omega
  match sprites, hlen with
  | [a], _ =>
    have h0 : idx = 0 := by
      simp only [List.length_cons, List.length_nil] at hlt
      omega
    subst h0
    simp only [List.getElem?_cons_zero] at hidx
    cases hidx
    rfl

/-- C10: removing a sprite frame by valid index from a custom asset set
cascades to the occupancy model: every `cityMap` entry (anchor or satellite)
whose `textureKey` is that set's texture and whose `tileName` is the removed
frame's name is deleted, with its drawable (if any) destroyed, while every
entry referencing another frame of the set (or another set) survives with
identical fields and its drawable presence preserved (anchors' drawables are
recreated against the rebuilt atlas). -/
theorem removeSpriteFromAsset_cascade (st : SceneState) (assetId : String)
    (spriteIndex : Nat) (assetSet : AssetSet) (removedSprite : SpriteMeta)
    (hnd : (st.cityMap.map Prod.fst).Nodup)
    (hlookup : lookupAsset st.assetSets assetId = some assetSet)
    (hidx : assetSet.sprites[spriteIndex]? = some removedSprite)
    (hnames : ∀ k td, get st.cityMap k = some td →
      td.textureKey = assetSet.textureKey →
      td.tileName ∈ assetSet.sprites.map (fun s => s.name)) :
    (removeSpriteFromAsset st assetId spriteIndex).1 = true ∧
    (∀ k td, get st.cityMap k = some td →
      td.textureKey = assetSet.textureKey →
      td.tileName = removedSprite.name →
      get (removeSpriteFromAsset st assetId spriteIndex).2.cityMap k = none ∧
      ∀ s, td.sprite = some s →
        s ∈ (removeSpriteFromAsset st assetId spriteIndex).2.destroyedSprites) ∧
    (∀ k td, get st.cityMap k = some td →
      ¬(td.textureKey = assetSet.textureKey ∧
        td.tileName = removedSprite.name) →
      ∃ td', get (removeSpriteFromAsset st assetId spriteIndex).2.cityMap k =
          some td' ∧
        td'.tileName = td.tileName ∧ td'.textureKey = td.textureKey ∧
        td'.layer = td.layer ∧ td'.footprint = td.footprint ∧
        td'.origin = td.origin ∧ td'.isAnchor = td.isAnchor ∧
        td'.anchorKey = td.anchorKey ∧
        td'.sprite.isSome = td.sprite.isSome) := by
  have hnd1 : ((cascadeDelete st.cityMap assetSet.textureKey
      removedSprite.name).map Prod.fst).Nodup :=
    nodup_keys_delMany hnd _
  have hchar : (removeSpriteFromAsset st assetId spriteIndex).1 = true ∧
      (removeSpriteFromAsset st assetId spriteIndex).2.destroyedSprites =
        st.destroyedSprites ++ st.hoverSprite.toList ++
        destroyedByCascade st.cityMap assetSet.textureKey removedSprite.name ++
        destroyedByRecreate (cascadeDelete st.cityMap assetSet.textureKey
          removedSprite.name) assetSet.textureKey ∧
      (((removeSpriteFromAsset st assetId spriteIndex).2.cityMap =
          nullRecreated (cascadeDelete st.cityMap assetSet.textureKey
            removedSprite.name) assetSet.textureKey ∧
        (removeAtIndex assetSet.sprites spriteIndex).isEmpty = true) ∨
       (removeSpriteFromAsset st assetId spriteIndex).2.cityMap =
         (recreateSprites
           (toRecreateKeys (cascadeDelete st.cityMap assetSet.textureKey
             removedSprite.name) assetSet.textureKey)
           (nullRecreated (cascadeDelete st.cityMap assetSet.textureKey
             removedSprite.name) assetSet.textureKey,
            st.nextSpriteId, [])).1) := by
    by_cases hrem : (removeAtIndex assetSet.sprites spriteIndex).isEmpty = true
    · refine ⟨?_, ?_, Or.inl ⟨?_, hrem⟩⟩ <;>
        · simp only [removeSpriteFromAsset, hlookup, hidx]
          rw [if_pos hrem]
    · refine ⟨?_, ?_, Or.inr ?_⟩ <;>
        · simp only [removeSpriteFromAsset, hlookup, hidx]
          rw [if_neg hrem]
  refine ⟨hchar.1, ?_, ?_⟩
  · intro k td hget htk2 hname
    have hmatch : cascadeMatchB assetSet.textureKey removedSprite.name td =
        true := cascadeMatchB_eq_true.mpr ⟨htk2, hname⟩
    have h1 : get (cascadeDelete st.cityMap assetSet.textureKey
        removedSprite.name) k = none := by
      have h := get_cascadeDelete hnd assetSet.textureKey removedSprite.name k
      simp only [hget] at h
      rw [if_pos hmatch] at h
      exact h
    have h2 : get (nullRecreated (cascadeDelete st.cityMap assetSet.textureKey
        removedSprite.name) assetSet.textureKey) k = none := by
      rw [get_nullRecreated, h1]
      rfl
    constructor
    · rcases hchar.2.2 with ⟨hmapeq, _⟩ | hmapeq
      · rw [hmapeq]
        exact h2
      · have hknot : k ∉ toRecreateKeys (cascadeDelete st.cityMap
            assetSet.textureKey removedSprite.name) assetSet.textureKey := by
          intro hk
          rcases mem_toRecreateKeys.mp hk with ⟨td1, htd1, _⟩
          rw [mem_get hnd1 htd1] at h1
          cases h1
        rw [hmapeq, get_recreateSprites_notMem _ _ _ _ _ hknot]
        exact h2
    · intro s hs
      have hsmem : s ∈ destroyedByCascade st.cityMap assetSet.textureKey
          removedSprite.name := by
        rw [destroyedByCascade, List.mem_flatMap]
        refine ⟨(k, td), List.mem_filter.mpr ⟨get_mem hget, hmatch⟩, ?_⟩
        rw [hs]
        exact List.mem_singleton.mpr rfl
      rw [hchar.2.1]
      simp only [List.mem_append]
      exact Or.inl (Or.inr hsmem)
  · intro k td hget hnm
    have hmatch : cascadeMatchB assetSet.textureKey removedSprite.name td =
        false := by
      rw [Bool.eq_false_iff]
      exact fun h => hnm (cascadeMatchB_eq_true.mp h)
    have h1 : get (cascadeDelete st.cityMap assetSet.textureKey
        removedSprite.name) k = some td := by
      have h := get_cascadeDelete hnd assetSet.textureKey removedSprite.name k
      simp only [hget] at h
      rw [if_neg (by rw [hmatch]; exact Bool.false_ne_true)] at h
      exact h
    have h2 : get (nullRecreated (cascadeDelete st.cityMap assetSet.textureKey
        removedSprite.name) assetSet.textureKey) k =
        some (nullTile assetSet.textureKey td) := by
      rw [get_nullRecreated, h1]
      rfl
    rcases hchar.2.2 with ⟨hmapeq, hempty⟩ | hmapeq
    · have hsprites : assetSet.sprites = [removedSprite] :=
        sprites_of_empty_remaining hidx hempty
      have hnull : nullTile assetSet.textureKey td = td := by
        rw [nullTile, if_neg]
        intro hrec
        rcases recreateTileB_eq_true.mp hrec with ⟨_, htk2, _⟩
        have hn := hnames k td hget htk2
        rw [hsprites] at hn
        simp only [List.map_cons, List.map_nil, List.mem_singleton] at hn
        exact hnm ⟨htk2, hn⟩
      refine ⟨td, ?_, rfl, rfl, rfl, rfl, rfl, rfl, rfl, rfl⟩
      rw [hmapeq, h2, hnull]
    · by_cases hrec : recreateTileB assetSet.textureKey td = true
      · have hkmem : k ∈ toRecreateKeys (cascadeDelete st.cityMap
            assetSet.textureKey removedSprite.name) assetSet.textureKey :=
          mem_toRecreateKeys.mpr ⟨td, get_mem h1, hrec⟩
        rcases get_recreateSprites_mem _ _ st.nextSpriteId [] k
          (nodup_toRecreateKeys hnd1 assetSet.textureKey) hkmem with ⟨n, hn⟩
        rw [h2] at hn
        have hnulltd : nullTile assetSet.textureKey td =
            { td with sprite := none } := by
          rw [nullTile, if_pos hrec]
        rw [hnulltd] at hn
        refine ⟨{ td with sprite := some n }, ?_, rfl, rfl, rfl, rfl, rfl,
          rfl, rfl, ?_⟩
        · rw [hmapeq, hn]
          rfl
        · have hs := (recreateTileB_eq_true.mp hrec).1
          simp only [Option.isSome_some]
          exact hs.symm
      · have hknot : k ∉ toRecreateKeys (cascadeDelete st.cityMap
            assetSet.textureKey removedSprite.name) assetSet.textureKey := by
          intro hk
          rcases mem_toRecreateKeys.mp hk with ⟨td1, htd1, hrec1⟩
          rw [mem_get hnd1 htd1] at h1
          cases h1
          exact hrec hrec1
        have hnull : nullTile assetSet.textureKey td = td := by
          rw [nullTile, if_neg hrec]
        refine ⟨td, ?_, rfl, rfl, rfl, rfl, rfl, rfl, rfl, rfl⟩
        rw [hmapeq, get_recreateSprites_notMem _ _ _ _ _ hknot, h2, hnull]

/-- A second custom sprite ("tree") for the cascade test input. -/
def treeSprite : SpriteMeta :=
  { name := "tree", x := 0, y := 200, width := 80, height := 120 }

/-- A two-frame custom asset set (concrete test input). -/
def mixedAssetSet : AssetSet :=
  { id := "custom2"
    name := "Mixed"
    textureKey := "texture_custom2"
    sprites := [houseSprite, treeSprite]
    isCustom := true }

/-- An anchor entry using the "tree" frame (concrete test input). -/
def treeTile : Tile :=
  { sprite := some 5, tileName := "tree", textureKey := "texture_custom2",
    layer := 0, footprint := ⟨1, 1⟩, origin := defaultOrigin, isAnchor := true }

/-- An anchor entry using the "house" frame (concrete test input). -/
def houseTile : Tile :=
  { sprite := some 6, tileName := "house", textureKey := "texture_custom2",
    layer := 0, footprint := ⟨2, 2⟩, origin := defaultOrigin, isAnchor := true }

/-- An anchor entry from an unrelated texture (concrete test input). -/
def grassTile : Tile :=
  { sprite := some 7, tileName := "grass", textureKey := "texture_floors",
    layer := 0, footprint := ⟨1, 1⟩, origin := defaultOrigin, isAnchor := true }

/-- Scene with the two-frame set and three placed anchors (test input). -/
def sceneForCascade : SceneState :=
  { sceneExample with
      gridSize := 10
      cityMap := [((0, 0, 0), treeTile), ((2, 2, 0), houseTile),
        ((5, 5, 0), grassTile)]
      assetSets := [("custom2", mixedAssetSet)]
      selectedAssetSetId := "custom2"
      selectedSpriteIndex := 0
      nextSpriteId := 8 }

/-- Witness for C10: removing frame 1 ("tree") deletes the tree anchor and
destroys its drawable, while the house anchor survives with its fields
intact and a drawable still attached, and the unrelated grass anchor is
untouched. -/
theorem removeSpriteFromAsset_cascade_witness :
    lookupAsset sceneForCascade.assetSets "custom2" = some mixedAssetSet ∧
    mixedAssetSet.sprites[1]? = some treeSprite ∧
    get (removeSpriteFromAsset sceneForCascade "custom2" 1).2.cityMap
        (0, 0, 0) = none ∧
    (5 : Nat) ∈
      (removeSpriteFromAsset sceneForCascade "custom2" 1).2.destroyedSprites ∧
    (∃ td', get (removeSpriteFromAsset sceneForCascade "custom2" 1).2.cityMap
        (2, 2, 0) = some td' ∧
      td'.tileName = houseTile.tileName ∧
      td'.textureKey = houseTile.textureKey ∧
      td'.layer = houseTile.layer ∧
      td'.footprint = houseTile.footprint ∧
      td'.origin = houseTile.origin ∧
      td'.isAnchor = houseTile.isAnchor ∧
      td'.anchorKey = houseTile.anchorKey ∧
      td'.sprite.isSome = houseTile.sprite.isSome) := by
  have hnames : ∀ k td, get sceneForCascade.cityMap k = some td →
      td.textureKey = mixedAssetSet.textureKey →
      td.tileName ∈ mixedAssetSet.sprites.map (fun s => s.name) := by
    intro k td h htk
    have hm := get_mem h
    rcases List.mem_cons.mp hm with h1 | hm
    · have htd : td = treeTile := congrArg Prod.snd h1
      subst htd
      decide
    · rcases List.mem_cons.mp hm with h1 | hm
      · have htd : td = houseTile := congrArg Prod.snd h1
        subst htd
        decide
      · rcases List.mem_cons.mp hm with h1 | hm
        · have htd : td = grassTile := congrArg Prod.snd h1
          subst htd
          exact absurd htk (by decide)
        · cases hm
  have h := removeSpriteFromAsset_cascade sceneForCascade "custom2" 1
    mixedAssetSet treeSprite (by decide) rfl rfl hnames
  have hdel := h.2.1 (0, 0, 0) treeTile (by decide) rfl rfl
  have hsur := h.2.2 (2, 2, 0) houseTile (by decide) (by decide)
  exact ⟨rfl, rfl, hdel.1, hdel.2 5 rfl, hsur⟩

/-- The footprint rectangle of an anchor entry keyed at `ak`: every cell the
placement occupies at that layer. -/
def blockCells (ak : Key) (fp : Footprint) : List Key :=
  rectCells ak.1 ak.2.1 fp.width fp.height ak.2.2

/-- The satellite record that `placeTile` / `loadMap` store at the non-anchor
cells of an anchor `(ak, td)`. -/
def satOf (ak : Key) (td : Tile) : Tile :=
  { sprite := none
    tileName := td.tileName
    textureKey := td.textureKey
    layer := ak.2.2
    footprint := td.footprint
    origin := td.origin
    isAnchor := false
    anchorKey := some ak }

/-- Executable consistency check for one `cityMap` entry: the layer matches
the key; an anchor holds a drawable, no `anchorKey`, a positive footprint,
and exactly its satellite records at every other cell of its block; a
satellite holds no drawable and an `anchorKey` resolving to an anchor entry
whose block contains it and whose descriptive fields it copies. -/
def entryConsistentB (m : CityMap) (k : Key) (td : Tile) : Bool :=
  decide (td.layer = k.2.2) &&
  (if td.isAnchor then
    td.sprite.isSome && decide (td.anchorKey = none) &&
    decide (1 ≤ td.footprint.width) && decide (1 ≤ td.footprint.height) &&
    (blockCells k td.footprint).all (fun c =>
      decide (c = k) || decide (get m c = some (satOf k td)))
  else
    decide (td.sprite = none) &&
    (match td.anchorKey with
     | none => false
     | some ak =>
       decide (k ≠ ak) &&
       (match get m ak with
        | none => false
        | some tda =>
          tda.isAnchor &&
          decide (tda.tileName = td.tileName) &&
          decide (tda.textureKey = td.textureKey) &&
          decide (tda.footprint = td.footprint) &&
          decide (tda.origin = td.origin) &&
          decide (k ∈ blockCells ak tda.footprint))))

/-- Executable consistency check for a whole `cityMap`: unique keys and every
entry consistent.  This is the §3 occupancy invariant of the spec. -/
def consistentB (m : CityMap) : Bool :=
  decide ((m.map Prod.fst).Nodup) &&
  m.all (fun e => entryConsistentB m e.1 e.2)

theorem consistentB_nodup {m : CityMap} (h : consistentB m = true) :
    (m.map Prod.fst).Nodup := by
  rw [consistentB, Bool.and_eq_true, decide_eq_true_eq] at h
  exact h.1

theorem consistentB_get {m : CityMap} (h : consistentB m = true) {k : Key}
    {td : Tile} (hget : get m k = some td) :
    entryConsistentB m k td = true := by
  rw [consistentB, Bool.and_eq_true, List.all_eq_true] at h
  exact h.2 (k, td) (get_mem hget)

theorem entryConsistentB_layer {m : CityMap} {k : Key} {td : Tile}
    (h : entryConsistentB m k td = true) : td.layer = k.2.2 := by
  rw [entryConsistentB, Bool.and_eq_true, decide_eq_true_eq] at h
  exact h.1

theorem entryConsistentB_anchor {m : CityMap} {k : Key} {td : Tile}
    (h : entryConsistentB m k td = true) (ha : td.isAnchor = true) :
    td.sprite.isSome = true ∧ td.anchorKey = none ∧
      1 ≤ td.footprint.width ∧ 1 ≤ td.footprint.height ∧
      ∀ c ∈ blockCells k td.footprint, c ≠ k →
        get m c = some (satOf k td) := by
  rw [entryConsistentB, Bool.and_eq_true] at h
  rw [ha] at h
  have h2 := h.2
  rw [if_pos rfl] at h2
  rw [Bool.and_eq_true, Bool.and_eq_true, Bool.and_eq_true, Bool.and_eq_true,
    decide_eq_true_eq, decide_eq_true_eq, decide_eq_true_eq,
    List.all_eq_true] at h2
  refine ⟨h2.1.1.1.1, h2.1.1.1.2, h2.1.1.2, h2.1.2, ?_⟩
  intro c hc hck
  have := h2.2 c hc
  rw [Bool.or_eq_true, decide_eq_true_eq, decide_eq_true_eq] at this
  exact this.resolve_left hck

theorem entryConsistentB_sat {m : CityMap} {k : Key} {td : Tile}
    (h : entryConsistentB m k td = true) (hs : td.isAnchor = false) :
    td.sprite = none ∧ ∃ ak tda, td.anchorKey = some ak ∧ k ≠ ak ∧
      get m ak = some tda ∧ tda.isAnchor = true ∧
      tda.tileName = td.tileName ∧ tda.textureKey = td.textureKey ∧
      tda.footprint = td.footprint ∧ tda.origin = td.origin ∧
      k ∈ blockCells ak tda.footprint := by
  rw [entryConsistentB, Bool.and_eq_true] at h
  rw [hs] at h
  have h2 := h.2
  rw [if_neg (by simp)] at h2
  rw [Bool.and_eq_true, decide_eq_true_eq] at h2
  refine ⟨h2.1, ?_⟩
  have h3 := h2.2
  cases hak : td.anchorKey with
  | none => rw [hak] at h3; cases h3
  | some ak =>
    rw [hak] at h3
    rw [Bool.and_eq_true, decide_eq_true_eq] at h3
    cases hga : get m ak with
    | none => rw [hga] at h3; exact absurd h3.2 (by simp)
    | some tda =>
      rw [hga] at h3
      have h4 := h3.2
      rw [Bool.and_eq_true, Bool.and_eq_true, Bool.and_eq_true,
        Bool.and_eq_true, Bool.and_eq_true, decide_eq_true_eq,
        decide_eq_true_eq, decide_eq_true_eq, decide_eq_true_eq,
        decide_eq_true_eq] at h4
      exact ⟨ak, tda, rfl, h3.1, hga, h4.1.1.1.1.1, h4.1.1.1.1.2,
        h4.1.1.1.2, h4.1.1.2, h4.1.2, h4.2⟩

/-- The §3 invariant exactly as the claim states it: every entry with
`isAnchor = false` has an `anchorKey` that resolves to an existing entry
with `isAnchor = true`. -/
def orphanFree (m : CityMap) : Prop :=
  ∀ k td, get m k = some td → td.isAnchor = false →
    ∃ ak tda, td.anchorKey = some ak ∧ get m ak = some tda ∧
      tda.isAnchor = true

theorem orphanFree_of_consistent {m : CityMap}
    (hc : consistentB m = true) : orphanFree m := by
  intro k td hget hsat
  rcases (entryConsistentB_sat (consistentB_get hc hget) hsat).2 with
    ⟨ak, tda, hak, _, hga, hanch, _⟩
  exact ⟨ak, tda, hak, hga, hanch⟩

theorem placeTile_of_oob (st : SceneState) (gridX gridY : Int)
    (hb : gridX < 0 ∨ gridX ≥ st.gridSize ∨ gridY < 0 ∨ gridY ≥ st.gridSize) :
    placeTile st gridX gridY = st := by
  simp only [placeTile]
  rw [if_pos hb]

theorem placeTile_of_noSelection (st : SceneState) (gridX gridY : Int)
    (hsel : resolveSelection st = none) : placeTile st gridX gridY = st := by
  by_cases hb : gridX < 0 ∨ gridX ≥ st.gridSize ∨ gridY < 0 ∨
      gridY ≥ st.gridSize
  · exact placeTile_of_oob st gridX gridY hb
  · simp only [placeTile, hsel]
    rw [if_neg hb]

theorem placeTile_of_rectAny (st : SceneState) (gridX gridY : Int)
    (assetSet : AssetSet) (spriteData : SpriteMeta)
    (hsel : resolveSelection st = some (assetSet, spriteData))
    (hany : (rectCells gridX gridY (spriteData.footprint.getD ⟨1, 1⟩).width
        (spriteData.footprint.getD ⟨1, 1⟩).height st.currentLayer).any
        (fun c => decide (st.gridSize ≤ c.1) || decide (st.gridSize ≤ c.2.1)) =
        true) :
    placeTile st gridX gridY = st := by
  by_cases hb : gridX < 0 ∨ gridX ≥ st.gridSize ∨ gridY < 0 ∨
      gridY ≥ st.gridSize
  · exact placeTile_of_oob st gridX gridY hb
  · simp only [placeTile, hsel]
    rw [if_neg hb, if_pos hany]

theorem removeTile_of_oob (st : SceneState) (gridX gridY : Int)
    (hb : gridX < 0 ∨ gridX ≥ st.gridSize ∨ gridY < 0 ∨ gridY ≥ st.gridSize) :
    removeTile st gridX gridY = st := by
  simp only [removeTile]
  rw [if_pos hb]

theorem resolveAnchorKey_of_anchor {k : Key} {td : Tile}
    (h : td.isAnchor = true) : resolveAnchorKey k td = k := by
  rw [resolveAnchorKey, h]

theorem resolveAnchorKey_of_sat {k : Key} {td : Tile} {ak : Key}
    (h : td.isAnchor = false) (hak : td.anchorKey = some ak) :
    resolveAnchorKey k td = ak := by
  rw [resolveAnchorKey, h, hak]

/-- The footprint rectangle a `placeTile` call at `(gridX, gridY)` would
occupy given the current selection (empty when nothing is selected). -/
def placeRectOf (st : SceneState) (gridX gridY : Int) : List Key :=
  match resolveSelection st with
  | none => []
  | some (_, spriteData) =>
    rectCells gridX gridY (spriteData.footprint.getD ⟨1, 1⟩).width
      (spriteData.footprint.getD ⟨1, 1⟩).height st.currentLayer

/-- Executable check that a footprint rectangle only covers whole blocks:
for every occupied cell of `rect`, the block of the entry's resolved anchor
lies entirely inside `rect`. -/
def noPartialOverlapB (m : CityMap) (rect : List Key) : Bool :=
  rect.all (fun c =>
    match get m c with
    | none => true
    | some td =>
      match get m (resolveAnchorKey c td) with
      | none => true
      | some tda => (blockCells (resolveAnchorKey c td) tda.footprint).all
          (fun c2 => decide (c2 ∈ rect)))

theorem noPartialOverlapB_spec {m : CityMap} {rect : List Key}
    (h : noPartialOverlapB m rect = true) :
    ∀ c ∈ rect, ∀ td, get m c = some td →
      ∀ tda, get m (resolveAnchorKey c td) = some tda →
        ∀ c2 ∈ blockCells (resolveAnchorKey c td) tda.footprint,
          c2 ∈ rect := by
  rw [noPartialOverlapB, List.all_eq_true] at h
  intro c hc td hget tda hga c2 hc2
  have hcc := h c hc
  simp only [hget] at hcc
  simp only [hga] at hcc
  rw [List.all_eq_true] at hcc
  have := hcc c2 hc2
  rwa [decide_eq_true_eq] at this

/-- Orphan-freedom of `placeTile` from a consistent map, provided the
placement's footprint rectangle does not partially cover a different
anchor's multi-cell block (helper for the amended C2). -/
theorem placeTile_orphanFree (st : SceneState) (gridX gridY : Int)
    (hc : consistentB st.cityMap = true)
    (hov : noPartialOverlapB st.cityMap (placeRectOf st gridX gridY) = true) :
    orphanFree (placeTile st gridX gridY).cityMap := by
  have hof := orphanFree_of_consistent hc
  by_cases hb : gridX < 0 ∨ gridX ≥ st.gridSize ∨ gridY < 0 ∨
      gridY ≥ st.gridSize
  · rw [placeTile_of_oob st gridX gridY hb]
    exact hof
  · cases hsel : resolveSelection st with
    | none =>
      rw [placeTile_of_noSelection st gridX gridY hsel]
      exact hof
    | some pair =>
      obtain ⟨assetSet, spriteData⟩ := pair
      by_cases hany : (rectCells gridX gridY
          (spriteData.footprint.getD ⟨1, 1⟩).width
          (spriteData.footprint.getD ⟨1, 1⟩).height st.currentLayer).any
          (fun c => decide (st.gridSize ≤ c.1) ||
            decide (st.gridSize ≤ c.2.1)) = true
      · rw [placeTile_of_rectAny st gridX gridY assetSet spriteData hsel
          hany]
        exact hof
      · have hany' : (rectCells gridX gridY
            (spriteData.footprint.getD ⟨1, 1⟩).width
            (spriteData.footprint.getD ⟨1, 1⟩).height st.currentLayer).any
            (fun c => decide (st.gridSize ≤ c.1) ||
              decide (st.gridSize ≤ c.2.1)) = false :=
          Bool.eq_false_iff.mpr hany
        have hpr : placeRectOf st gridX gridY = rectCells gridX gridY
            (spriteData.footprint.getD ⟨1, 1⟩).width
            (spriteData.footprint.getD ⟨1, 1⟩).height st.currentLayer := by
          rw [placeRectOf, hsel]
        rw [hpr] at hov
        have hchar := get_placeTile_valid st gridX gridY assetSet
          spriteData hb hsel hany'
        intro k td hget hsat
        rw [hchar k] at hget
        by_cases hk : k = (gridX, gridY, st.currentLayer)
        · rw [if_pos hk] at hget
          cases hget
          simp [anchorRecord] at hsat
        · rw [if_neg hk] at hget
          by_cases hr : k ∈ rectCells gridX gridY
              (spriteData.footprint.getD ⟨1, 1⟩).width
              (spriteData.footprint.getD ⟨1, 1⟩).height st.currentLayer
          · rw [if_pos hr] at hget
            cases hget
            refine ⟨(gridX, gridY, st.currentLayer),
              anchorRecord st assetSet spriteData, rfl, ?_, rfl⟩
            rw [hchar (gridX, gridY, st.currentLayer), if_pos rfl]
          · rw [if_neg hr] at hget
            rcases (entryConsistentB_sat (consistentB_get hc hget)
              hsat).2 with ⟨ak, tda, hak, hkak, hga, hanch, _, _, _, _, hblk⟩
            by_cases hakr : ak ∈ rectCells gridX gridY
                (spriteData.footprint.getD ⟨1, 1⟩).width
                (spriteData.footprint.getD ⟨1, 1⟩).height st.currentLayer
            · exfalso
              have hres : resolveAnchorKey ak tda = ak :=
                resolveAnchorKey_of_anchor hanch
              have hin := noPartialOverlapB_spec hov ak hakr tda hga tda
                (by rw [hres]; exact hga) k (by rw [hres]; exact hblk)
              exact hr hin
            · by_cases hkeq : ak = (gridX, gridY, st.currentLayer)
              · refine ⟨ak, anchorRecord st assetSet spriteData, hak, ?_,
                  rfl⟩
                rw [hchar ak, if_pos hkeq]
              · refine ⟨ak, tda, hak, ?_, hanch⟩
                rw [hchar ak, if_neg hkeq, if_neg hakr]
                exact hga

/-- Orphan-freedom of `removeTile` from a consistent map, with no proviso
(helper for the amended C2). -/
theorem removeTile_orphanFree (st : SceneState) (gridX gridY : Int)
    (hc : consistentB st.cityMap = true) :
    orphanFree (removeTile st gridX gridY).cityMap := by
  have hof := orphanFree_of_consistent hc
  by_cases hb : gridX < 0 ∨ gridX ≥ st.gridSize ∨ gridY < 0 ∨
      gridY ≥ st.gridSize
  · rw [removeTile_of_oob st gridX gridY hb]
    exact hof
  · cases hget0 : get st.cityMap (gridX, gridY, st.currentLayer) with
    | none =>
      have heq : removeTile st gridX gridY = st := by
        simp only [removeTile]
        rw [if_neg hb]
        simp only [hget0]
      rw [heq]
      exact hof
    | some td0 =>
      cases hga0 : get st.cityMap
          (resolveAnchorKey (gridX, gridY, st.currentLayer) td0) with
      | none =>
        have heq : removeTile st gridX gridY = st := by
          simp only [removeTile]
          rw [if_neg hb]
          simp only [hget0, hga0]
        rw [heq]
        exact hof
      | some ad =>
        have hmap : (removeTile st gridX gridY).cityMap =
            delMany st.cityMap (blockCells
              (resolveAnchorKey (gridX, gridY, st.currentLayer) td0)
              ad.footprint) := by
          simp only [removeTile]
          rw [if_neg hb]
          simp only [hget0, hga0]
          rfl
        have hadAnchor : ad.isAnchor = true := by
          cases hA : td0.isAnchor with
          | true =>
            have hres := resolveAnchorKey_of_anchor
              (k := (gridX, gridY, st.currentLayer)) hA
            rw [hres, hget0] at hga0
            cases hga0
            exact hA
          | false =>
            rcases (entryConsistentB_sat (consistentB_get hc hget0)
              hA).2 with ⟨ak, tda, hak, _, hga, hanch, _⟩
            have hres := resolveAnchorKey_of_sat
              (k := (gridX, gridY, st.currentLayer)) hA hak
            rw [hres, hga] at hga0
            cases hga0
            exact hanch
        have hfacts := entryConsistentB_anchor
          (consistentB_get hc hga0) hadAnchor
        intro k td hget hsat
        rw [hmap, get_delMany] at hget
        have hknot : k ∉ blockCells
            (resolveAnchorKey (gridX, gridY, st.currentLayer) td0)
            ad.footprint := by
          intro hk
          rw [if_pos hk] at hget
          cases hget
        rw [if_neg hknot] at hget
        rcases (entryConsistentB_sat (consistentB_get hc hget) hsat).2 with
          ⟨ak, tda, hak, hkak, hga, hanch, _, _, _, _, hblk⟩
        have haknot : ak ∉ blockCells
            (resolveAnchorKey (gridX, gridY, st.currentLayer) td0)
            ad.footprint := by
          intro hakc
          by_cases hake : ak = resolveAnchorKey
              (gridX, gridY, st.currentLayer) td0
          · rw [hake, hga0] at hga
            cases hga
            exact hknot (hake ▸ hblk)
          · have hsatc := hfacts.2.2.2.2 ak hakc hake
            rw [hga] at hsatc
            cases hsatc
            simp [satOf] at hanch
        refine ⟨ak, tda, hak, ?_, hanch⟩
        rw [hmap, get_delMany, if_neg haknot]
        exact hga

/-- The 2x2 house placed at `(2, 2)` (concrete test input). -/
def overlapScene1 : SceneState := placeTile sceneWithHouse 2 2

/-- A second 2x2 house placed at `(1, 1)`, partially overlapping the block
anchored at `(2, 2)` (concrete test input). -/
def overlapScene2 : SceneState := placeTile overlapScene1 1 1

/-- C2 counterexample: after two successful placements whose footprints
partially overlap, the satellite at `(3, 2, 0)` still carries
`anchorKey = (2, 2, 0)`, but the entry now stored at `(2, 2, 0)` is a
satellite of the new anchor `(1, 1, 0)` (`isAnchor = false`), so the map
contains an orphaned satellite and the claimed invariant fails. -/
theorem placeTile_overlap_orphan_counterexample :
    get overlapScene2.cityMap (3, 2, 0) =
        some (satRecord sceneWithHouse houseAssetSet houseSprite 2 2) ∧
      get overlapScene2.cityMap (2, 2, 0) =
        some (satRecord overlapScene1 houseAssetSet houseSprite 1 1) ∧
      ¬ orphanFree overlapScene2.cityMap := by
  refine ⟨by decide, by decide, ?_⟩
  intro h
  have h5 := h (3, 2, 0)
    (satRecord sceneWithHouse houseAssetSet houseSprite 2 2)
    (by decide) (by decide)
  obtain ⟨ak, tda, h1, h2, h3⟩ := h5
  rw [show (satRecord sceneWithHouse houseAssetSet houseSprite 2 2).anchorKey
    = some ((2 : Int), (2 : Int), (0 : Int)) from rfl] at h1
  cases h1
  have hval : get overlapScene2.cityMap (2, 2, 0) =
      some (satRecord overlapScene1 houseAssetSet houseSprite 1 1) := by
    decide
  rw [hval] at h2
  cases h2
  exact absurd h3 (by decide)


/-- `textureKey.startsWith("texture_")` (loadMap line 1027), modelled on the
character lists underlying the strings. -/
def startsWithTexture (s : String) : Bool :=
  "texture_".data.isPrefixOf s.data

/-- The legacy `textureKey` remapping of `loadMap` (lines 1020-1028). -/
def remapTextureKey (tk : String) : String :=
  if tk = "cityTiles" then "texture_tiles"
  else if tk = "cityDetails" then "texture_details"
  else if tk = "buildingTiles" then "texture_buildings"
  else if ¬ startsWithTexture tk then "texture_" ++ tk
  else tk

/-- One record of the exported `tiles` array
(`{x, y, layer, tileName, textureKey, footprint?, origin?}`). -/
structure ExportTile where
  x : Int
  y : Int
  layer : Int
  tileName : String
  textureKey : String
  footprint : Option Footprint := none
  origin : Option Origin := none
deriving DecidableEq, Repr

/-- The tile record `exportMap` / `saveToLocalStorage` emit for one anchor
entry (part_002 lines 855-880): the key is parsed back into coordinates
(`layer || 0` is the identity on integer layers), the footprint is included
only when multi-cell, the origin only when it differs from `{0.5, 0.5}`. -/
def exportEntry (k : Key) (td : Tile) : ExportTile :=
  { x := k.1
    y := k.2.1
    layer := k.2.2
    tileName := td.tileName
    textureKey := td.textureKey
    footprint :=
      if 1 < td.footprint.width ∨ 1 < td.footprint.height then
        some td.footprint
      else none
    origin :=
      if td.origin.x ≠ half ∨ td.origin.y ≠ half then some td.origin
      else none }

/-- The exported `tiles` array: one record per anchor entry, in map
iteration order (satellites are skipped, line 853). -/
def exportTiles (m : CityMap) : List ExportTile :=
  m.filterMap (fun e =>
    if e.2.isAnchor then some (exportEntry e.1 e.2) else none)

/-- The map document (part_002 lines 904-914).  Custom asset records only
rebuild textures and asset sets, never the `cityMap`, so they are not part
of the occupancy model. -/
structure MapDoc where
  version : String
  gridSize : Int
  originOffsetX : Option ℚ := none
  originOffsetY : Option ℚ := none
  tileWidth : ℚ
  tileHeight : ℚ
  tiles : List ExportTile
deriving Repr

/-- The document `exportMap` / `saveToLocalStorage` produce (lines 904-914). -/
def exportDoc (st : SceneState) : MapDoc :=
  { version := "4.0"
    gridSize := st.gridSize
    originOffsetX := some st.originOffsetX
    originOffsetY := some st.originOffsetY
    tileWidth := st.tileWidth
    tileHeight := st.tileHeight
    tiles := exportTiles st.cityMap }

/-- The anchor key `loadMap` derives for a tile record (line 1046). -/
def anchorKeyOf (tile : ExportTile) : Key := (tile.x, tile.y, tile.layer)

/-- The anchor record `loadMap` stores (lines 1047-1055). -/
def importAnchor (tile : ExportTile) (nid : Nat) : Tile :=
  { sprite := some nid
    tileName := tile.tileName
    textureKey := remapTextureKey tile.textureKey
    layer := tile.layer
    footprint := tile.footprint.getD ⟨1, 1⟩
    origin := tile.origin.getD defaultOrigin
    isAnchor := true }

/-- The satellite record `loadMap` stores (lines 1058-1073). -/
def importSat (tile : ExportTile) : Tile :=
  { sprite := none
    tileName := tile.tileName
    textureKey := remapTextureKey tile.textureKey
    layer := tile.layer
    footprint := tile.footprint.getD ⟨1, 1⟩
    origin := tile.origin.getD defaultOrigin
    isAnchor := false
    anchorKey := some (anchorKeyOf tile) }

/-- One iteration of `jsonData.tiles.forEach` in `loadMap` (lines
1015-1074): create the drawable, store the anchor record, then the
satellite records (skipping `fx === 0 && fy === 0`).  State:
`(cityMap, nextSpriteId, created)`. -/
def insertTileBlock (acc : CityMap × Nat × List Nat) (tile : ExportTile) :
    CityMap × Nat × List Nat :=
  let m2 := setEntry acc.1 (anchorKeyOf tile) (importAnchor tile acc.2.1)
  let m3 := setManyConst m2
    (satCells tile.x tile.y (tile.footprint.getD ⟨1, 1⟩).width
      (tile.footprint.getD ⟨1, 1⟩).height tile.layer)
    (importSat tile)
  (m3, acc.2.1 + 1, acc.2.2 ++ [acc.2.1])

/-- The footprint rectangle a tile record occupies on import. -/
def tileBlock (tile : ExportTile) : List Key :=
  rectCells tile.x tile.y (tile.footprint.getD ⟨1, 1⟩).width
    (tile.footprint.getD ⟨1, 1⟩).height tile.layer

/-- All cells an imported tile record writes: the anchor cell plus its
footprint rectangle. -/
def coveredCells (tile : ExportTile) : List Key :=
  anchorKeyOf tile :: tileBlock tile

/-- `loadMap(jsonData)` (part_002 lines 928-1083) restricted to the
occupancy model: destroy all current drawables and clear the map, restore
the origin offset (with the legacy `gridSize` fallback), then rebuild one
anchor-plus-satellites block per tile record.  Custom-asset records only
re-register textures and asset sets and are not part of the `cityMap`
rebuild; the image decodes are modelled as completing in order. -/
def loadMap (st : SceneState) (doc : MapDoc) : SceneState :=
  let destroyed := st.destroyedSprites ++
    st.cityMap.flatMap (fun e => e.2.sprite.toList)
  let offsets : ℚ × ℚ :=
    match doc.originOffsetX with
    | some ox => (ox, doc.originOffsetY.getD 200)
    | none =>
      if doc.gridSize ≠ 0 then (((doc.gridSize : ℚ) * st.tileWidth) / 2, 200)
      else (st.originOffsetX, st.originOffsetY)
  let fold := doc.tiles.foldl insertTileBlock ([], st.nextSpriteId, [])
  { st with
      cityMap := fold.1
      originOffsetX := offsets.1
      originOffsetY := offsets.2
      destroyedSprites := destroyed
      nextSpriteId := fold.2.1
      createdSprites := st.createdSprites ++ fold.2.2
      autosaveScheduled := true }

/-- Forget the concrete drawable identifier of an entry, keeping only its
presence: the observational view of a `cityMap` record. -/
def eraseSpriteId (td : Tile) : Tile :=
  { td with sprite := if td.sprite.isSome then some 0 else none }

/-- Observational equality of two maps: the same entries at every key, up
to concrete drawable identifiers. -/
def obsEqMap (m1 m2 : CityMap) : Prop :=
  ∀ k, (get m1 k).map eraseSpriteId = (get m2 k).map eraseSpriteId

/-- Executable check that every entry's texture key carries the
`texture_` prefix (true for every texture the scene itself creates). -/
def texPrefixedB (m : CityMap) : Bool :=
  m.all (fun e => startsWithTexture e.2.textureKey)

theorem texPrefixedB_get {m : CityMap} (h : texPrefixedB m = true) {k : Key}
    {td : Tile} (hget : get m k = some td) :
    startsWithTexture td.textureKey = true := by
  rw [texPrefixedB, List.all_eq_true] at h
  exact h (k, td) (get_mem hget)

theorem anchorKeyOf_exportEntry (k : Key) (td : Tile) :
    anchorKeyOf (exportEntry k td) = k := rfl

theorem remapTextureKey_of_prefixed {tk : String}
    (h : startsWithTexture tk = true) : remapTextureKey tk = tk := by
  have h1 : tk ≠ "cityTiles" := by
    intro e; rw [e] at h; exact absurd h (by decide)
  have h2 : tk ≠ "cityDetails" := by
    intro e; rw [e] at h; exact absurd h (by decide)
  have h3 : tk ≠ "buildingTiles" := by
    intro e; rw [e] at h; exact absurd h (by decide)
  rw [remapTextureKey, if_neg h1, if_neg h2, if_neg h3,
    if_neg (fun hc => hc h)]

theorem footprint_roundtrip {fp : Footprint} (hw : 1 ≤ fp.width)
    (hh : 1 ≤ fp.height) :
    (if 1 < fp.width ∨ 1 < fp.height then some fp else none).getD ⟨1, 1⟩ =
      fp := by
  by_cases h : 1 < fp.width ∨ 1 < fp.height
  · rw [if_pos h]
    rfl
  · rw [if_neg h]
    rcases fp with ⟨w, hgt⟩
    simp only [not_or, not_lt] at h
    simp only [Option.getD_none]
    have hw1 : w = 1 := by
      have := h.1
      simp only at this hw
      omega
    have hh1 : hgt = 1 := by
      have := h.2
      simp only at this hh
      omega
    rw [hw1, hh1]

theorem origin_roundtrip {o : Origin} :
    (if o.x ≠ half ∨ o.y ≠ half then some o else none).getD defaultOrigin =
      o := by
  by_cases h : o.x ≠ half ∨ o.y ≠ half
  · rw [if_pos h]
    rfl
  · rw [if_neg h]
    simp only [not_or, not_not] at h
    rcases o with ⟨x, y⟩
    simp only at h
    rw [Option.getD_none, defaultOrigin, h.1, h.2]

theorem get_insertTileBlock (acc : CityMap × Nat × List Nat)
    (tile : ExportTile) (k : Key) :
    get (insertTileBlock acc tile).1 k =
      if k = anchorKeyOf tile then some (importAnchor tile acc.2.1)
      else if k ∈ tileBlock tile then some (importSat tile)
      else get acc.1 k := by
  show get (setManyConst _ _ _) k = _
  rw [get_setManyConst, get_setEntry]
  by_cases hk : k = anchorKeyOf tile
  · have hns : k ∉ satCells tile.x tile.y (tile.footprint.getD ⟨1, 1⟩).width
        (tile.footprint.getD ⟨1, 1⟩).height tile.layer :=
      fun hs => (mem_satCells.mp hs).2 hk
    rw [if_neg hns, if_pos hk, if_pos hk]
  · rw [if_neg hk]
    by_cases hr : k ∈ tileBlock tile
    · have hs : k ∈ satCells tile.x tile.y (tile.footprint.getD ⟨1, 1⟩).width
          (tile.footprint.getD ⟨1, 1⟩).height tile.layer :=
        mem_satCells.mpr ⟨hr, hk⟩
      rw [if_pos hs, if_neg hk, if_pos hr]
    · have hns : k ∉ satCells tile.x tile.y (tile.footprint.getD ⟨1, 1⟩).width
          (tile.footprint.getD ⟨1, 1⟩).height tile.layer :=
        fun hs => hr (mem_satCells.mp hs).1
      rw [if_neg hns, if_neg hk, if_neg hr]

theorem anchor_mem_blockCells {k : Key} {fp : Footprint}
    (hw : 1 ≤ fp.width) (hh : 1 ≤ fp.height) : k ∈ blockCells k fp := by
  refine mem_rectCells.mpr ⟨0, hw, 0, hh, ?_⟩
  obtain ⟨a, b, c⟩ := k
  simp

theorem tileBlock_exportEntry {k : Key} {td : Tile}
    (hw : 1 ≤ td.footprint.width) (hh : 1 ≤ td.footprint.height) :
    tileBlock (exportEntry k td) = blockCells k td.footprint := by
  have hfp : (exportEntry k td).footprint.getD ⟨1, 1⟩ = td.footprint :=
    footprint_roundtrip hw hh
  rw [tileBlock, hfp]
  rfl

theorem covered_subset_block {k c : Key} {td : Tile}
    (hw : 1 ≤ td.footprint.width) (hh : 1 ≤ td.footprint.height)
    (hcv : c ∈ coveredCells (exportEntry k td)) :
    c ∈ blockCells k td.footprint := by
  rcases List.mem_cons.mp hcv with rfl | hcv
  · rw [anchorKeyOf_exportEntry]
    exact anchor_mem_blockCells hw hh
  · rwa [tileBlock_exportEntry hw hh] at hcv

theorem export_blocks_disjoint {m : CityMap} (hc : consistentB m = true)
    {k1 k2 : Key} {td1 td2 : Tile}
    (h1 : (k1, td1) ∈ m) (h2 : (k2, td2) ∈ m)
    (ha1 : td1.isAnchor = true) (ha2 : td2.isAnchor = true)
    (hne : k1 ≠ k2) :
    ∀ c, c ∈ coveredCells (exportEntry k1 td1) →
      c ∉ coveredCells (exportEntry k2 td2) := by
  have hnd := consistentB_nodup hc
  have hg1 : get m k1 = some td1 := mem_get hnd h1
  have hg2 : get m k2 = some td2 := mem_get hnd h2
  have hf1 := entryConsistentB_anchor (consistentB_get hc hg1) ha1
  have hf2 := entryConsistentB_anchor (consistentB_get hc hg2) ha2
  intro c hc1 hc2
  have hb1 := covered_subset_block hf1.2.2.1 hf1.2.2.2.1 hc1
  have hb2 := covered_subset_block hf2.2.2.1 hf2.2.2.2.1 hc2
  by_cases hck1 : c = k1
  · by_cases hck2 : c = k2
    · exact hne (hck1.symm.trans hck2)
    · have hs2 := hf2.2.2.2.2 c hb2 hck2
      rw [hck1, hg1] at hs2
      have := Option.some.inj hs2
      rw [this] at ha1
      simp [satOf] at ha1
  · have hs1 := hf1.2.2.2.2 c hb1 hck1
    by_cases hck2 : c = k2
    · rw [hck2, hg2] at hs1
      have := Option.some.inj hs1
      rw [this] at ha2
      simp [satOf] at ha2
    · have hs2 := hf2.2.2.2.2 c hb2 hck2
      rw [hs1] at hs2
      have := Option.some.inj hs2
      have hkk := congrArg Tile.anchorKey this
      simp only [satOf] at hkk
      exact hne (Option.some.inj hkk)

theorem get_foldTiles_notCovered (tiles : List ExportTile)
    (acc : CityMap × Nat × List Nat) (k : Key)
    (h : ∀ t ∈ tiles, k ∉ coveredCells t) :
    get (tiles.foldl insertTileBlock acc).1 k = get acc.1 k := by
  induction tiles generalizing acc with
  | nil => rfl
  | cons t rest ih =>
    rw [List.foldl_cons,
      ih _ (fun t' ht' => h t' (List.mem_cons.mpr (Or.inr ht'))),
      get_insertTileBlock]
    have hk := h t (List.mem_cons_self t rest)
    have hka : ¬ k = anchorKeyOf t := fun e => hk (by
      rw [coveredCells, e]
      exact List.mem_cons_self _ _)
    have hkb : k ∉ tileBlock t := fun hb => hk (by
      rw [coveredCells]
      exact List.mem_cons.mpr (Or.inr hb))
    rw [if_neg hka, if_neg hkb]

theorem get_foldTiles_covered (tiles : List ExportTile) :
    ∀ (acc : CityMap × Nat × List Nat) (t : ExportTile) (k : Key),
      tiles.Pairwise
        (fun t1 t2 => ∀ c, c ∈ coveredCells t1 → c ∉ coveredCells t2) →
      t ∈ tiles → k ∈ coveredCells t →
      ∃ n, get (tiles.foldl insertTileBlock acc).1 k =
        if k = anchorKeyOf t then some (importAnchor t n)
        else some (importSat t) := by
  induction tiles with
  | nil =>
    intro acc t k _ ht _
    cases ht
  | cons t0 rest ih =>
    intro acc t k hdisj ht hk
    rw [List.pairwise_cons] at hdisj
    rw [List.foldl_cons]
    rcases List.mem_cons.mp ht with rfl | ht'
    · have hnot : ∀ t' ∈ rest, k ∉ coveredCells t' :=
        fun t' ht' => hdisj.1 t' ht' k hk
      by_cases hka : k = anchorKeyOf t
      · refine ⟨acc.2.1, ?_⟩
        rw [get_foldTiles_notCovered rest _ k hnot, get_insertTileBlock,
          if_pos hka, if_pos hka]
      · have hkb : k ∈ tileBlock t := by
          rcases List.mem_cons.mp hk with h | h
          · exact absurd h hka
          · exact h
        refine ⟨0, ?_⟩
        rw [get_foldTiles_notCovered rest _ k hnot, get_insertTileBlock,
          if_neg hka, if_pos hkb, if_neg hka]
    · exact ih (insertTileBlock acc t0) t k hdisj.2 ht' hk

theorem mem_exportTiles {m : CityMap} {t : ExportTile} :
    t ∈ exportTiles m ↔
      ∃ k td, (k, td) ∈ m ∧ td.isAnchor = true ∧ t = exportEntry k td := by
  rw [exportTiles, List.mem_filterMap]
  constructor
  · rintro ⟨e, he, hf⟩
    by_cases ha : e.2.isAnchor
    · rw [if_pos ha] at hf
      cases hf
      exact ⟨e.1, e.2, by simpa using he, ha, rfl⟩
    · rw [if_neg ha] at hf
      cases hf
  · rintro ⟨k, td, hm, ha, rfl⟩
    exact ⟨(k, td), hm, by rw [if_pos ha]⟩

theorem importAnchor_obs (k : Key) (td : Tile) (n : Nat)
    (hlayer : td.layer = k.2.2)
    (hw : 1 ≤ td.footprint.width) (hh : 1 ≤ td.footprint.height)
    (hs : td.sprite.isSome = true) (ha : td.isAnchor = true)
    (hak : td.anchorKey = none)
    (htex : startsWithTexture td.textureKey = true) :
    eraseSpriteId (importAnchor (exportEntry k td) n) = eraseSpriteId td := by
  simp only [eraseSpriteId, importAnchor, exportEntry]
  rw [Tile.mk.injEq]
  refine ⟨?_, rfl, ?_, ?_, ?_, ?_, ?_, ?_⟩
  · simp [hs]
  · exact remapTextureKey_of_prefixed htex
  · exact hlayer.symm
  · exact footprint_roundtrip hw hh
  · exact origin_roundtrip
  · exact ha.symm
  · exact hak.symm

theorem importSat_eq_satOf (k : Key) (td : Tile)
    (hw : 1 ≤ td.footprint.width) (hh : 1 ≤ td.footprint.height)
    (htex : startsWithTexture td.textureKey = true) :
    importSat (exportEntry k td) = satOf k td := by
  simp only [importSat, exportEntry, satOf, anchorKeyOf]
  rw [Tile.mk.injEq]
  exact ⟨rfl, rfl, remapTextureKey_of_prefixed htex, rfl,
    footprint_roundtrip hw hh, origin_roundtrip, rfl, rfl⟩

/-- C5 (amended): for every consistent `cityMap` whose texture keys carry
the scene's `texture_` prefix, importing the document produced by export
(`loadMap` of the `exportMap` / auto-save JSON) yields a `cityMap`
observationally equal to the original: the same anchor entries — with
footprints omitted for 1x1 and origins omitted at the default restored to
those defaults — and the same derived satellite entries, all up to the
concrete drawable identifiers. -/
theorem loadMap_exportDoc_roundtrip (st : SceneState)
    (hc : consistentB st.cityMap = true)
    (htex : texPrefixedB st.cityMap = true) :
    obsEqMap (loadMap st (exportDoc st)).cityMap st.cityMap := by
  have hnd := consistentB_nodup hc
  have hmap : (loadMap st (exportDoc st)).cityMap =
      ((exportTiles st.cityMap).foldl insertTileBlock
        ([], st.nextSpriteId, [])).1 := rfl
  have hdisj : (exportTiles st.cityMap).Pairwise
      (fun t1 t2 => ∀ c, c ∈ coveredCells t1 → c ∉ coveredCells t2) := by
    have hp0 : st.cityMap.Pairwise (fun e1 e2 => e1.1 ≠ e2.1) :=
      List.pairwise_map.mp hnd
    have hp1 : st.cityMap.Pairwise (fun e1 e2 =>
        ∀ t1 ∈ (if e1.2.isAnchor then some (exportEntry e1.1 e1.2)
          else none),
        ∀ t2 ∈ (if e2.2.isAnchor then some (exportEntry e2.1 e2.2)
          else none),
        ∀ c, c ∈ coveredCells t1 → c ∉ coveredCells t2) := by
      refine List.Pairwise.imp_of_mem ?_ hp0
      intro e1 e2 h1 h2 hne t1 ht1 t2 ht2
      by_cases ha1 : e1.2.isAnchor
      · by_cases ha2 : e2.2.isAnchor
        · rw [if_pos ha1] at ht1
          rw [if_pos ha2] at ht2
          cases ht1
          cases ht2
          exact export_blocks_disjoint hc h1 h2 ha1 ha2 hne
        · rw [if_neg ha2] at ht2
          cases ht2
      · rw [if_neg ha1] at ht1
        cases ht1
    exact List.Pairwise.filterMap _ (fun a a' h => h) hp1
  intro k
  rw [hmap]
  cases hget : get st.cityMap k with
  | none =>
    have hnone : ∀ t ∈ exportTiles st.cityMap, k ∉ coveredCells t := by
      intro t ht hkc
      rcases mem_exportTiles.mp ht with ⟨ka, tda, hmem, ha, rfl⟩
      have hga := mem_get hnd hmem
      have hf := entryConsistentB_anchor (consistentB_get hc hga) ha
      have hb := covered_subset_block hf.2.2.1 hf.2.2.2.1 hkc
      by_cases hkka : k = ka
      · rw [hkka, hga] at hget
        cases hget
      · have hs := hf.2.2.2.2 k hb hkka
        rw [hget] at hs
        cases hs
    rw [get_foldTiles_notCovered _ _ _ hnone]
    rfl
  | some td =>
    cases ha : td.isAnchor with
    | true =>
      have hf := entryConsistentB_anchor (consistentB_get hc hget) ha
      have hlayer := entryConsistentB_layer (consistentB_get hc hget)
      have ht : exportEntry k td ∈ exportTiles st.cityMap :=
        mem_exportTiles.mpr ⟨k, td, get_mem hget, ha, rfl⟩
      have hkcov : k ∈ coveredCells (exportEntry k td) := by
        rw [coveredCells]
        exact List.mem_cons.mpr (Or.inl (anchorKeyOf_exportEntry k td).symm)
      rcases get_foldTiles_covered _ _ _ _ hdisj ht hkcov with ⟨n, hn⟩
      rw [hn, if_pos (anchorKeyOf_exportEntry k td).symm]
      simp only [Option.map_some']
      exact congrArg some (importAnchor_obs k td n hlayer hf.2.2.1
        hf.2.2.2.1 hf.1 ha hf.2.1 (texPrefixedB_get htex hget))
    | false =>
      rcases (entryConsistentB_sat (consistentB_get hc hget) ha).2 with
        ⟨ak, tda, hak, hkak, hga, hanch, _, _, _, _, hblk⟩
      have hfa := entryConsistentB_anchor (consistentB_get hc hga) hanch
      have htd : td = satOf ak tda := by
        have hs := hfa.2.2.2.2 k hblk hkak
        rw [hget] at hs
        exact Option.some.inj hs
      have ht : exportEntry ak tda ∈ exportTiles st.cityMap :=
        mem_exportTiles.mpr ⟨ak, tda, get_mem hga, hanch, rfl⟩
      have hkcov : k ∈ coveredCells (exportEntry ak tda) := by
        rw [coveredCells]
        refine List.mem_cons.mpr (Or.inr ?_)
        rw [tileBlock_exportEntry hfa.2.2.1 hfa.2.2.2.1]
        exact hblk
      rcases get_foldTiles_covered _ _ _ _ hdisj ht hkcov with ⟨n, hn⟩
      rw [hn, if_neg (fun e => hkak (by
        rw [e, anchorKeyOf_exportEntry])), htd]
      rw [importSat_eq_satOf ak tda hfa.2.2.1 hfa.2.2.2.1
        (texPrefixedB_get htex hga)]

/-- C5 counterexample: `overlapScene2` is built purely from two successful
`placeTile` calls, yet export keeps only anchors, so the orphaned satellite
at `(3, 2, 0)` left behind by the overlapping second placement is dropped by
the round trip: the imported map has nothing at `(3, 2, 0)` while the
original map has an entry there, so the two maps are not observationally
equal. -/
theorem loadMap_exportDoc_overlap_counterexample :
    (get overlapScene2.cityMap (3, 2, 0)).isSome = true ∧
      get (loadMap overlapScene2 (exportDoc overlapScene2)).cityMap
        (3, 2, 0) = none ∧
      ¬ obsEqMap (loadMap overlapScene2 (exportDoc overlapScene2)).cityMap
        overlapScene2.cityMap := by
  refine ⟨by decide, by decide, ?_⟩
  intro h
  exact absurd (h (3, 2, 0)) (by decide)

/-- Witness for the amended C5 on the consistent one-house map. -/
theorem loadMap_exportDoc_roundtrip_witness :
    consistentB overlapScene1.cityMap = true ∧
      texPrefixedB overlapScene1.cityMap = true ∧
      obsEqMap (loadMap overlapScene1 (exportDoc overlapScene1)).cityMap
        overlapScene1.cityMap :=
  ⟨by decide, by decide,
    loadMap_exportDoc_roundtrip overlapScene1 (by decide) (by decide)⟩

/-- Forget an entry's drawable entirely: the record shape the orphan
invariant depends on (`isAnchor`, `anchorKey` and the descriptive fields),
with the sprite field cleared. -/
def stripSprite (td : Tile) : Tile := { td with sprite := none }

theorem stripSprite_nullTile (tk : String) (td : Tile) :
    stripSprite (nullTile tk td) = stripSprite td := by
  rw [nullTile]
  split_ifs <;> rfl

theorem strip_recreateSprites (ks : List Key) (m : CityMap) (nid : Nat)
    (created : List Nat) (hnd : ks.Nodup) (k : Key) :
    (get (recreateSprites ks (m, nid, created)).1 k).map stripSprite =
      (get m k).map stripSprite := by
  by_cases hk : k ∈ ks
  · rcases get_recreateSprites_mem ks m nid created k hnd hk with ⟨n, hn⟩
    rw [hn]
    cases get m k with
    | none => rfl
    | some td => rfl
  · rw [get_recreateSprites_notMem ks m nid created k hk]

theorem strip_nullRecreated (m : CityMap) (tk : String) (k : Key) :
    (get (nullRecreated m tk) k).map stripSprite =
      (get m k).map stripSprite := by
  rw [get_nullRecreated]
  cases get m k with
  | none => rfl
  | some td =>
    show some (stripSprite (nullTile tk td)) = some (stripSprite td)
    rw [stripSprite_nullTile]

/-- In the success case, `removeSpriteFromAsset` only reattaches or clears
drawables after the cascade deletion: every entry of the final map has the
same shape (everything but the sprite field) as the corresponding entry of
the cascaded map. -/
theorem removeSpriteFromAsset_strip (st : SceneState) (assetId : String)
    (spriteIndex : Nat) (assetSet : AssetSet) (removedSprite : SpriteMeta)
    (hnd : (st.cityMap.map Prod.fst).Nodup)
    (hlookup : lookupAsset st.assetSets assetId = some assetSet)
    (hidx : assetSet.sprites[spriteIndex]? = some removedSprite) (k : Key) :
    (get (removeSpriteFromAsset st assetId spriteIndex).2.cityMap k).map
        stripSprite =
      (get (cascadeDelete st.cityMap assetSet.textureKey removedSprite.name)
        k).map stripSprite := by
  have hnd1 : ((cascadeDelete st.cityMap assetSet.textureKey
      removedSprite.name).map Prod.fst).Nodup := nodup_keys_delMany hnd _
  by_cases hrem : (removeAtIndex assetSet.sprites spriteIndex).isEmpty = true
  · have hmapeq : (removeSpriteFromAsset st assetId spriteIndex).2.cityMap =
        nullRecreated (cascadeDelete st.cityMap assetSet.textureKey
          removedSprite.name) assetSet.textureKey := by
      simp only [removeSpriteFromAsset, hlookup, hidx]
      rw [if_pos hrem]
    rw [hmapeq, strip_nullRecreated]
  · have hmapeq : (removeSpriteFromAsset st assetId spriteIndex).2.cityMap =
        (recreateSprites
          (toRecreateKeys (cascadeDelete st.cityMap assetSet.textureKey
            removedSprite.name) assetSet.textureKey)
          (nullRecreated (cascadeDelete st.cityMap assetSet.textureKey
            removedSprite.name) assetSet.textureKey,
           st.nextSpriteId, [])).1 := by
      simp only [removeSpriteFromAsset, hlookup, hidx]
      rw [if_neg hrem]
    rw [hmapeq, strip_recreateSprites _ _ _ _
      (nodup_toRecreateKeys hnd1 assetSet.textureKey), strip_nullRecreated]

/-- Orphan-freedom of custom-asset removal from a consistent map, with no
proviso: a satellite survives the cascade exactly when its anchor does,
because the consistency invariant makes a satellite copy its anchor's
`textureKey` and `tileName` (helper for the amended C2). -/
theorem removeSpriteFromAsset_orphanFree (st : SceneState) (assetId : String)
    (spriteIndex : Nat) (hc : consistentB st.cityMap = true) :
    orphanFree (removeSpriteFromAsset st assetId spriteIndex).2.cityMap := by
  have hnd := consistentB_nodup hc
  cases hla : lookupAsset st.assetSets assetId with
  | none =>
    have heq : (removeSpriteFromAsset st assetId spriteIndex).2 = st := by
      simp only [removeSpriteFromAsset, hla]
    rw [heq]
    exact orphanFree_of_consistent hc
  | some assetSet =>
    cases hidx : assetSet.sprites[spriteIndex]? with
    | none =>
      have heq : (removeSpriteFromAsset st assetId spriteIndex).2 = st := by
        simp only [removeSpriteFromAsset, hla, hidx]
      rw [heq]
      exact orphanFree_of_consistent hc
    | some removedSprite =>
      have hstrip := removeSpriteFromAsset_strip st assetId spriteIndex
        assetSet removedSprite hnd hla hidx
      intro k td' hget hsat
      have hk := hstrip k
      rw [hget] at hk
      cases hm1 : get (cascadeDelete st.cityMap assetSet.textureKey
          removedSprite.name) k with
      | none =>
        rw [hm1] at hk
        cases hk
      | some td =>
        rw [hm1] at hk
        have hstd : stripSprite td' = stripSprite td := Option.some.inj hk
        have hAA : td'.isAnchor = td.isAnchor := by
          show (stripSprite td').isAnchor = (stripSprite td).isAnchor
          rw [hstd]
        have hKK : td'.anchorKey = td.anchorKey := by
          show (stripSprite td').anchorKey = (stripSprite td).anchorKey
          rw [hstd]
        have hcd := get_cascadeDelete hnd assetSet.textureKey
          removedSprite.name k
        rw [hm1] at hcd
        cases hg0 : get st.cityMap k with
        | none =>
          simp only [hg0] at hcd
          cases hcd
        | some td0 =>
          simp only [hg0] at hcd
          by_cases hmatch : cascadeMatchB assetSet.textureKey
              removedSprite.name td0 = true
          · rw [if_pos hmatch] at hcd
            cases hcd
          · rw [if_neg hmatch] at hcd
            obtain rfl := Option.some.inj hcd
            have hsatc : td.isAnchor = false := by
              rw [← hAA]
              exact hsat
            rcases (entryConsistentB_sat (consistentB_get hc hg0) hsatc).2
              with ⟨ak, tda, hak, hkne, hga, hanch, hname, htex, _, _, _⟩
            have hmtda : cascadeMatchB assetSet.textureKey
                removedSprite.name tda = false := by
              rw [Bool.eq_false_iff]
              intro hmt
              rcases cascadeMatchB_eq_true.mp hmt with ⟨ht1, ht2⟩
              exact hmatch (cascadeMatchB_eq_true.mpr
                ⟨htex.symm.trans ht1, hname.symm.trans ht2⟩)
            have hm1ak : get (cascadeDelete st.cityMap assetSet.textureKey
                removedSprite.name) ak = some tda := by
              have h := get_cascadeDelete hnd assetSet.textureKey
                removedSprite.name ak
              simp only [hga] at h
              rw [if_neg (by rw [hmtda]; exact Bool.false_ne_true)] at h
              exact h
            have hka := hstrip ak
            rw [hm1ak] at hka
            cases hFa : get (removeSpriteFromAsset st assetId
                spriteIndex).2.cityMap ak with
            | none =>
              rw [hFa] at hka
              cases hka
            | some tda' =>
              rw [hFa] at hka
              have hstda : stripSprite tda' = stripSprite tda :=
                Option.some.inj hka
              have hA2 : tda'.isAnchor = tda.isAnchor := by
                show (stripSprite tda').isAnchor = (stripSprite tda).isAnchor
                rw [hstda]
              exact ⟨ak, tda', hKK.trans hak, hFa, hA2.trans hanch⟩

/-- Orphan-freedom of the `loadMap` rebuild fold for a tile list with
pairwise disjoint blocks: every imported satellite's `anchorKey` points at
its own record's anchor cell, which no other record overwrites (helper for
the amended C2). -/
theorem foldTiles_orphanFree (tiles : List ExportTile) (nid : Nat)
    (hdisj : tiles.Pairwise
      (fun t1 t2 => ∀ c, c ∈ coveredCells t1 → c ∉ coveredCells t2)) :
    orphanFree (tiles.foldl insertTileBlock ([], nid, [])).1 := by
  intro k td hget hsat
  by_cases hcov : ∃ t ∈ tiles, k ∈ coveredCells t
  · rcases hcov with ⟨t, ht, hk⟩
    rcases get_foldTiles_covered tiles ([], nid, []) t k hdisj ht hk with
      ⟨n, hn⟩
    rw [hget] at hn
    by_cases hka : k = anchorKeyOf t
    · rw [if_pos hka] at hn
      have htd : td = importAnchor t n := Option.some.inj hn
      rw [htd] at hsat
      exact absurd hsat (by simp [importAnchor])
    · rw [if_neg hka] at hn
      have htd : td = importSat t := Option.some.inj hn
      have hkanch : anchorKeyOf t ∈ coveredCells t :=
        List.mem_cons_self _ _
      rcases get_foldTiles_covered tiles ([], nid, []) t (anchorKeyOf t)
        hdisj ht hkanch with ⟨n2, hn2⟩
      rw [if_pos rfl] at hn2
      exact ⟨anchorKeyOf t, importAnchor t n2, by rw [htd]; rfl, hn2, rfl⟩
  · push_neg at hcov
    rw [get_foldTiles_notCovered tiles ([], nid, []) k hcov] at hget
    cases hget

/-- Orphan-freedom of `loadMap` for a document with pairwise disjoint
blocks — as the blocks of every document exported from a consistent map
are (helper for the amended C2). -/
theorem loadMap_orphanFree (st : SceneState) (doc : MapDoc)
    (hdisj : doc.tiles.Pairwise
      (fun t1 t2 => ∀ c, c ∈ coveredCells t1 → c ∉ coveredCells t2)) :
    orphanFree (loadMap st doc).cityMap :=
  foldTiles_orphanFree doc.tiles st.nextSpriteId hdisj

/-- C2 (amended): starting from a consistent `cityMap`, every mutation of
the occupancy model leaves the map free of orphaned satellites, with the
proviso forced by the partial-overlap counterexample: `placeTile` is
covered only when its footprint rectangle does not partially cover a
different anchor's multi-cell block, and `loadMap` only when the document's
anchor blocks are pairwise disjoint (as the blocks of every document
exported from a consistent map are) — otherwise the overwritten anchor cell
orphans that block's remaining satellites.  `removeTile` and custom-asset
removal (`removeSpriteFromAsset`, at any asset id and index) never leave an
orphan, with no proviso. -/
theorem cityMap_mutations_no_orphans (st : SceneState)
    (hc : consistentB st.cityMap = true) :
    (∀ gridX gridY : Int,
      (noPartialOverlapB st.cityMap (placeRectOf st gridX gridY) = true →
        orphanFree (placeTile st gridX gridY).cityMap) ∧
      orphanFree (removeTile st gridX gridY).cityMap) ∧
    (∀ doc : MapDoc,
      doc.tiles.Pairwise
        (fun t1 t2 => ∀ c, c ∈ coveredCells t1 → c ∉ coveredCells t2) →
      orphanFree (loadMap st doc).cityMap) ∧
    ∀ (assetId : String) (spriteIndex : Nat),
      orphanFree (removeSpriteFromAsset st assetId spriteIndex).2.cityMap :=
  ⟨fun gridX gridY =>
    ⟨fun hov => placeTile_orphanFree st gridX gridY hc hov,
     removeTile_orphanFree st gridX gridY hc⟩,
   fun doc hdisj => loadMap_orphanFree st doc hdisj,
   fun assetId spriteIndex =>
     removeSpriteFromAsset_orphanFree st assetId spriteIndex hc⟩

/-- A well-formed two-block document (concrete test input): a 2x2 block at
`(0, 0)` and a 1x1 block at `(5, 5)`, disjoint. -/
def sampleDoc : MapDoc :=
  { version := "4.0"
    gridSize := 10
    originOffsetX := some (mkRat 660 1)
    originOffsetY := some (mkRat 200 1)
    tileWidth := mkRat 132 1
    tileHeight := mkRat 66 1
    tiles := [
      { x := 0, y := 0, layer := 0, tileName := "house",
        textureKey := "texture_custom1", footprint := some ⟨2, 2⟩ },
      { x := 5, y := 5, layer := 0, tileName := "grass",
        textureKey := "texture_floors" }] }

/-- Witness for the amended C2 on the consistent one-house map: a
non-overlapping placement at `(5, 5)`, a removal at `(5, 5)`, a load of a
disjoint two-block document, and the removal of the only frame of the
custom asset all leave the map orphan-free. -/
theorem cityMap_mutations_no_orphans_witness :
    consistentB overlapScene1.cityMap = true ∧
      noPartialOverlapB overlapScene1.cityMap
        (placeRectOf overlapScene1 5 5) = true ∧
      sampleDoc.tiles.Pairwise
        (fun t1 t2 => ∀ c, c ∈ coveredCells t1 → c ∉ coveredCells t2) ∧
      orphanFree (placeTile overlapScene1 5 5).cityMap ∧
      orphanFree (removeTile overlapScene1 5 5).cityMap ∧
      orphanFree (loadMap overlapScene1 sampleDoc).cityMap ∧
      orphanFree
        (removeSpriteFromAsset overlapScene1 "custom1" 0).2.cityMap := by
  have h := cityMap_mutations_no_orphans overlapScene1 (by decide)
  exact ⟨by decide, by decide, by decide,
    (h.1 5 5).1 (by decide), (h.1 5 5).2,
    h.2.1 sampleDoc (by decide), h.2.2 "custom1" 0⟩

end OasisBuilder
